import Mathlib

/-!
Verification of the SuperDoc Python SDK core (packages/sdk/langs/python/superdoc):
a shallow embedding of the argument encoder, envelope decoder, version gate,
session resolver, collaboration guard, dispatch validator and tool-catalog
selector, together with theorems settling the specification claims.

Python values are modelled by `PyVal`; Python dictionaries are association
lists (first binding wins on lookup, as real dicts have unique keys).
External effects (the file system, `json.loads`, `os.environ`, `hashlib`)
are passed in as explicit function parameters, mirroring the fact that the
code under verification only consumes their results.
-/

/-- Model of a Python value as the SDK manipulates them. -/
inductive PyVal where
  | none
  | bool (b : Bool)
  | int (n : Int)
  | str (s : String)
  | list (xs : List PyVal)
  | dict (fields : List (String × PyVal))

/-- Python truthiness (`bool(v)`): `None`, `False`, `0`, `""`, `[]`, `{}` are falsy. -/
def pyTruthy : PyVal → Bool
  | .none => false
  | .bool b => b
  | .int n => n != 0
  | .str s => s ≠ ""
  | .list xs => !xs.isEmpty
  | .dict fs => !fs.isEmpty

/-- Python `key in d` on a dict. -/
def hasKey (fields : List (String × PyVal)) (k : String) : Bool :=
  fields.any (fun p => p.1 == k)

/-- Python `d.get(k, default)` on a dict: the default is used only when the key is absent. -/
def dgetD (fields : List (String × PyVal)) (k : String) (d : PyVal) : PyVal :=
  match fields.find? (fun p => p.1 == k) with
  | some p => p.2
  | Option.none => d

/-- Python `d.get(k)` on a dict (absent key yields `None`). -/
def dget (fields : List (String × PyVal)) (k : String) : PyVal :=
  dgetD fields k .none

/-- Python `v.get(k)` where `v` is known by the caller to be a dict
(the SDK only calls `.get` on values it has checked with `isinstance(..., dict)`
or that a decoder guarantees to be objects). -/
def pget (v : PyVal) (k : String) : PyVal :=
  match v with
  | .dict fs => dget fs k
  | _ => .none

/-- Python `v.get(k, d)` where `v` is known by the caller to be a dict. -/
def pgetD (v : PyVal) (k : String) (d : PyVal) : PyVal :=
  match v with
  | .dict fs => dgetD fs k d
  | _ => d

mutual
/-- Python `==` between values. Booleans compare equal to the integers 0/1 as
in Python; lists compare elementwise. Dict comparison is modelled
order-sensitively (the contract data the SDK compares never has two equal
dicts in different key orders). -/
def pyEq : PyVal → PyVal → Bool
  | .none, .none => true
  | .bool a, .bool b => a == b
  | .bool a, .int b => (if a then (1 : Int) else 0) == b
  | .int a, .bool b => a == (if b then (1 : Int) else 0)
  | .int a, .int b => a == b
  | .str a, .str b => a == b
  | .list xs, .list ys => pyEqList xs ys
  | .dict xs, .dict ys => pyEqFields xs ys
  | _, _ => false

/-- Elementwise Python `==` on lists. -/
def pyEqList : List PyVal → List PyVal → Bool
  | [], [] => true
  | x :: xs, y :: ys => pyEq x y && pyEqList xs ys
  | _, _ => false

/-- Keyed Python `==` on dict field lists (same keys in the same order, equal values). -/
def pyEqFields : List (String × PyVal) → List (String × PyVal) → Bool
  | [], [] => true
  | (k, v) :: xs, (k2, v2) :: ys => k == k2 && pyEq v v2 && pyEqFields xs ys
  | _, _ => false
end

/-- Escape one character for a JSON string literal (model of `json.dumps`). -/
def jsonEscapeChar (c : Char) : String :=
  if c = '"' then "\\\""
  else if c = '\\' then "\\\\"
  else if c = '\n' then "\\n"
  else if c = '\t' then "\\t"
  else if c = '\r' then "\\r"
  else String.singleton c

/-- Escape a string for a JSON string literal. -/
def jsonEscape (s : String) : String :=
  s.toList.foldl (fun acc c => acc ++ jsonEscapeChar c) ""

mutual
/-- Model of Python `json.dumps` with its default separators. -/
def jsonDumps : PyVal → String
  | .none => "null"
  | .bool true => "true"
  | .bool false => "false"
  | .int n => toString n
  | .str s => "\"" ++ jsonEscape s ++ "\""
  | .list xs => "[" ++ jsonDumpsList xs ++ "]"
  | .dict fs => "\x7b" ++ jsonDumpsFields fs ++ "\x7d"

/-- Comma-joined serialization of list elements. -/
def jsonDumpsList : List PyVal → String
  | [] => ""
  | [x] => jsonDumps x
  | x :: rest => jsonDumps x ++ ", " ++ jsonDumpsList rest

/-- Comma-joined serialization of dict entries. -/
def jsonDumpsFields : List (String × PyVal) → String
  | [] => ""
  | [(k, v)] => "\"" ++ jsonEscape k ++ "\": " ++ jsonDumps v
  | (k, v) :: rest => "\"" ++ jsonEscape k ++ "\": " ++ jsonDumps v ++ ", " ++ jsonDumpsFields rest
end

mutual
/-- Model of Python `str(v)`. The SDK only ever stringifies scalars when it
matters; containers are rendered in a repr-like form. -/
def pyStr : PyVal → String
  | .none => "None"
  | .bool true => "True"
  | .bool false => "False"
  | .int n => toString n
  | .str s => s
  | .list xs => "[" ++ pyStrList xs ++ "]"
  | .dict fs => "\x7b" ++ pyStrFields fs ++ "\x7d"

/-- Comma-joined repr of list elements. -/
def pyStrList : List PyVal → String
  | [] => ""
  | [x] => pyStr x
  | x :: rest => pyStr x ++ ", " ++ pyStrList rest

/-- Comma-joined repr of dict entries. -/
def pyStrFields : List (String × PyVal) → String
  | [] => ""
  | [(k, v)] => k ++ ": " ++ pyStr v
  | (k, v) :: rest => k ++ ": " ++ pyStr v ++ ", " ++ pyStrFields rest
end

/-- Characters Python `str.strip()` removes. -/
def isPyWs (c : Char) : Bool :=
  c = ' ' || c = '\t' || c = '\n' || c = '\r' || c = '\x0b' || c = '\x0c'

/-- Model of Python `str.strip()`. -/
def pyStrip (s : String) : String :=
  String.mk (((s.toList.dropWhile isPyWs).reverse.dropWhile isPyWs).reverse)

/-- Inner loop of `pySplitlines`: split on a newline, carriage return, or a
carriage-return/newline pair, without a trailing empty line. -/
def splitlinesAux : List Char → List Char → List String
  | [], acc => [String.mk acc.reverse]
  | '\r' :: '\n' :: rest, acc =>
    String.mk acc.reverse :: (if rest.isEmpty then [] else splitlinesAux rest [])
  | '\n' :: rest, acc =>
    String.mk acc.reverse :: (if rest.isEmpty then [] else splitlinesAux rest [])
  | '\r' :: rest, acc =>
    String.mk acc.reverse :: (if rest.isEmpty then [] else splitlinesAux rest [])
  | c :: rest, acc => splitlinesAux rest (c :: acc)

/-- Model of Python `str.splitlines()`. -/
def pySplitlines (s : String) : List String :=
  if s = "" then [] else splitlinesAux s.toList []

/-- Digits of a decimal literal to a natural number, or `none` when the list
is empty or holds a non-digit. -/
def digitsToNat? (ds : List Char) : Option Nat :=
  if ds ≠ [] ∧ ds.all Char.isDigit then
    some (ds.foldl (fun acc c => acc * 10 + (c.toNat - '0'.toNat)) 0)
  else Option.none

/-- Sign-and-digits parsing of an already-trimmed character list. -/
def pyIntTrimmed? : List Char → Option Int
  | [] => Option.none
  | c :: ds =>
    if c = '+' then (digitsToNat? ds).map Int.ofNat
    else if c = '-' then (digitsToNat? ds).map (fun n => -(Int.ofNat n))
    else (digitsToNat? (c :: ds)).map Int.ofNat

/-- Model of Python `int(s)` on a character list: optional surrounding
whitespace, optional sign, decimal digits. -/
def pyIntChars? (cs : List Char) : Option Int :=
  pyIntTrimmed? (((cs.dropWhile isPyWs).reverse.dropWhile isPyWs).reverse)

/-- Model of Python `str.split(sep)` for a one-character separator. -/
def splitChar (sep : Char) : List Char → List (List Char)
  | [] => [[]]
  | c :: rest =>
    if c = sep then [] :: splitChar sep rest
    else
      match splitChar sep rest with
      | chunk :: more => (c :: chunk) :: more
      | [] => [[c]]

/-- Model of `os.path.join` for the relative components the SDK joins. -/
def pjoin (a b : String) : String := a ++ "/" ++ b

/-- Model of Python `"\n".join(lines)`. -/
def joinNl : List String → String
  | [] => ""
  | [x] => x
  | x :: rest => x ++ "\n" ++ joinNl rest

/-- Python `s.startswith("\x7b")`: the needle is one character, so this is a
first-character test. -/
def startsWithBrace (s : String) : Bool :=
  match s.data with
  | c :: _ => c = '\x7b'
  | [] => false

/-- Model of `SuperDocError`: its machine-readable error code, the `details`
payload and the process exit code. (The human-readable message is not
modelled; no claim concerns it.) -/
structure SDError where
  code : PyVal
  details : PyVal
  exitCode : PyVal

/-!
Envelope decoder — `runtime.py`: `_extract_envelope_candidates`,
`_try_parse_candidates`, `_parse_envelope`. The decoder is parameterized by
`jloads : String → Option PyVal`, the result of Python `json.loads` (with a
parse failure as `none`).
-/

/-- Loop body of `_extract_envelope_candidates`: for each line whose stripped
form starts with a brace, the suffix of the line list from that line on is
joined and stripped into one candidate (`runtime.py` lines 96-99). -/
def extractCandidatesLoop : List String → List String
  | [] => []
  | line :: rest =>
    if startsWithBrace (pyStrip line) then
      pyStrip (joinNl (line :: rest)) :: extractCandidatesLoop rest
    else extractCandidatesLoop rest

/-- Translation of `_extract_envelope_candidates` (`runtime.py` lines 88-100). -/
def extract_envelope_candidates (text : String) : List String :=
  let stripped := pyStrip text
  if stripped = "" then []
  else stripped :: extractCandidatesLoop (pySplitlines stripped)

/-- A parsed value is an acceptable envelope when it is an object containing
the key `ok` (`runtime.py` line 110). -/
def isEnvelopeObject : PyVal → Bool
  | .dict fs => hasKey fs "ok"
  | _ => false

/-- Translation of `_try_parse_candidates` (`runtime.py` lines 103-114). -/
def try_parse_candidates (jloads : String → Option PyVal) : List String → Option PyVal
  | [] => Option.none
  | c :: rest =>
    if c = "" then try_parse_candidates jloads rest
    else
      match jloads c with
      | some parsed =>
        if isEnvelopeObject parsed then some parsed else try_parse_candidates jloads rest
      | Option.none => try_parse_candidates jloads rest

/-- The `details` payload carrying both raw streams. -/
def streamsDetails (stdout stderr : String) : List (String × PyVal) :=
  [("stdout", .str stdout), ("stderr", .str stderr)]

/-- Translation of `_parse_envelope` (`runtime.py` lines 117-137). -/
def parse_envelope (jloads : String → Option PyVal) (stdout stderr : String) :
    Except SDError PyVal :=
  if pyStrip stdout = "" ∧ pyStrip stderr = "" then
    .error ⟨.str "COMMAND_FAILED", .dict (streamsDetails stdout stderr), .none⟩
  else
    match try_parse_candidates jloads (extract_envelope_candidates stdout) with
    | some result => .ok result
    | Option.none =>
      match try_parse_candidates jloads (extract_envelope_candidates stderr) with
      | some result => .ok result
      | Option.none =>
        .error ⟨.str "JSON_PARSE_ERROR",
          .dict (streamsDetails stdout stderr ++
            [("message", .str "Failed to parse envelope JSON.")]), .none⟩

/-!
Claim-side decoder for C1, written from the claim's words: the candidate list
is the whole trimmed text first, then for every line that starts with a brace
character, the substring from that line to the end, trimmed; the first
candidate parsing to a JSON object containing the key `ok` is accepted,
stdout before stderr; otherwise failure with `COMMAND_FAILED` when both
streams are blank and `JSON_PARSE_ERROR` otherwise.
-/

/-- The candidate contributed by one line suffix per C1's literal words: the
substring from the line to the end, trimmed, when the line starts with a
brace character. -/
def literalLineCandidate : List String → Option String
  | [] => Option.none
  | line :: rest =>
    if startsWithBrace line then some (pyStrip (joinNl (line :: rest)))
    else Option.none

/-- The candidate contributed by one line suffix per the amended claim: the
line-start test ignores the line's surrounding whitespace. -/
def amendedLineCandidate : List String → Option String
  | [] => Option.none
  | line :: rest =>
    if startsWithBrace (pyStrip line) then some (pyStrip (joinNl (line :: rest)))
    else Option.none

/-- Candidate list per the claim's literal words: the whole trimmed text
first, then a candidate for every line that starts with a brace character. -/
def specCandidatesLiteral (text : String) : List String :=
  let stripped := pyStrip text
  if stripped = "" then []
  else stripped :: (pySplitlines stripped).tails.filterMap literalLineCandidate

/-- Candidate list per the amended claim: a per-line candidate exists for
every line that, after trimming surrounding whitespace, starts with a brace
character. -/
def specCandidatesAmended (text : String) : List String :=
  let stripped := pyStrip text
  if stripped = "" then []
  else stripped :: (pySplitlines stripped).tails.filterMap amendedLineCandidate

/-- Acceptance per the claim: the first candidate that parses as a JSON object
containing the key `ok`. -/
def specAccept (jloads : String → Option PyVal) (candidates : List String) : Option PyVal :=
  candidates.findSome? (fun c =>
    match jloads c with
    | some parsed => if isEnvelopeObject parsed then some parsed else Option.none
    | Option.none => Option.none)

/-- Decoder per the claim's literal words (with the literal line-start test). -/
def specParseEnvelopeLiteral (jloads : String → Option PyVal) (stdout stderr : String) :
    Except SDError PyVal :=
  match specAccept jloads (specCandidatesLiteral stdout) with
  | some result => .ok result
  | Option.none =>
    match specAccept jloads (specCandidatesLiteral stderr) with
    | some result => .ok result
    | Option.none =>
      if pyStrip stdout = "" ∧ pyStrip stderr = "" then
        .error ⟨.str "COMMAND_FAILED", .dict (streamsDetails stdout stderr), .none⟩
      else
        .error ⟨.str "JSON_PARSE_ERROR",
          .dict (streamsDetails stdout stderr ++
            [("message", .str "Failed to parse envelope JSON.")]), .none⟩

/-- Decoder per the amended claim (line-start test on the trimmed line). -/
def specParseEnvelopeAmended (jloads : String → Option PyVal) (stdout stderr : String) :
    Except SDError PyVal :=
  match specAccept jloads (specCandidatesAmended stdout) with
  | some result => .ok result
  | Option.none =>
    match specAccept jloads (specCandidatesAmended stderr) with
    | some result => .ok result
    | Option.none =>
      if pyStrip stdout = "" ∧ pyStrip stderr = "" then
        .error ⟨.str "COMMAND_FAILED", .dict (streamsDetails stdout stderr), .none⟩
      else
        .error ⟨.str "JSON_PARSE_ERROR",
          .dict (streamsDetails stdout stderr ++
            [("message", .str "Failed to parse envelope JSON.")]), .none⟩

/-!
Argument encoder — `runtime.py`: `_encode_param` (lines 26-57) and the
per-operation encoding loop in `invoke` (lines 308-309). A parameter spec is
structured as the generated contract declares it.
-/

/-- One declared parameter of an operation, as the generated contract holds it. -/
structure ParamSpec where
  name : String
  kind : String
  type : String
  required : Bool
  flag : Option String

/-- Python `spec.get('flag') or spec['name']` (a missing or empty flag falls
back to the parameter name). -/
def flagNameOf (spec : ParamSpec) : String :=
  match spec.flag with
  | some f => if f = "" then spec.name else f
  | Option.none => spec.name

/-- Translation of `_encode_param` (`runtime.py` lines 26-57), returning the
tokens appended to the argv list. -/
def encode_param (spec : ParamSpec) (value : PyVal) : Except SDError (List String) :=
  match value with
  | .none =>
    if spec.required then .error ⟨.str "INVALID_ARGUMENT", .none, .none⟩
    else .ok []
  | v =>
    if spec.kind = "doc" then .ok [pyStr v]
    else
      let flag := "--" ++ flagNameOf spec
      if spec.type = "boolean" then
        .ok [flag, if pyTruthy v then "true" else "false"]
      else if spec.type = "string[]" then
        match v with
        | .list items => .ok (items.foldr (fun item acc => flag :: pyStr item :: acc) [])
        | _ => .error ⟨.str "INVALID_ARGUMENT", .none, .none⟩
      else if spec.type = "json" then
        .ok [flag, jsonDumps v]
      else
        .ok [flag, pyStr v]

/-- Translation of the encoding loop in `invoke` (`runtime.py` lines 308-309):
each declared param, in declaration order, is encoded against
`payload.get(spec['name'])` and the token lists are concatenated. -/
def encodeParams (params : List ParamSpec) (payload : List (String × PyVal)) :
    Except SDError (List String) :=
  match params with
  | [] => .ok []
  | spec :: rest =>
    match encode_param spec (dget payload spec.name) with
    | .error e => .error e
    | .ok toks =>
      match encodeParams rest payload with
      | .error e => .error e
      | .ok more => .ok (toks ++ more)

/-- Claim-side encoder for one parameter, written from C2's words: absent and
required fails; absent and optional emits nothing; kind `doc` appends the
stringified value bare; otherwise a `--flag` token (override or name) followed
by the type-directed value tokens, with a non-list string-array value failing. -/
def specEncodeParamClaim (spec : ParamSpec) (value : PyVal) : Except SDError (List String) :=
  match value with
  | .none =>
    if spec.required then .error ⟨.str "INVALID_ARGUMENT", .none, .none⟩ else .ok []
  | value =>
  if spec.kind = "doc" then
    .ok [pyStr value]
  else
    let flag := "--" ++ flagNameOf spec
    if spec.type = "boolean" then
      .ok [flag, if pyTruthy value then "true" else "false"]
    else if spec.type = "string[]" then
      match value with
      | .list items => .ok (List.flatten (items.map (fun item => [flag, pyStr item])))
      | _ => .error ⟨.str "INVALID_ARGUMENT", .none, .none⟩
    else if spec.type = "json" then
      .ok [flag, jsonDumps value]
    else
      .ok [flag, pyStr value]

/-- Claim-side whole-call encoder from C2's words: params processed in
declaration order, the first failure aborting, token lists concatenated. -/
def specEncodeParamsClaim (params : List ParamSpec) (payload : List (String × PyVal)) :
    Except SDError (List String) :=
  params.foldr
    (fun spec acc =>
      match specEncodeParamClaim spec (dget payload spec.name) with
      | .error e => .error e
      | .ok toks =>
        match acc with
        | .error e => .error e
        | .ok more => .ok (toks ++ more))
    (.ok [])

/-!
Version gate — `runtime.py`: `_normalized_version` (lines 160-172) and
`_ensure_cli_version_compatible` (lines 175-201). The declared minimum
version (`CONTRACT.get('cli', {}).get('minVersion')`) is a parameter.
-/

/-- Translation of `_normalized_version`: drop any `-suffix` pre-release tag,
split on dots, require at least three components, and parse the first three
as integers. -/
def normalized_version (version : String) : Option (Int × Int × Int) :=
  let core := version.toList.takeWhile (fun c => c ≠ '-')
  match splitChar '.' core with
  | p0 :: p1 :: p2 :: _ =>
    match pyIntChars? p0, pyIntChars? p1, pyIntChars? p2 with
    | some a, some b, some c => some (a, b, c)
    | _, _, _ => Option.none
  | _ => Option.none

/-- Lexicographic (componentwise numeric) strict order on version triples,
Python tuple `<`. -/
def versionLt : Int × Int × Int → Int × Int × Int → Bool
  | (a1, b1, c1), (a2, b2, c2) =>
    decide (a1 < a2) ||
      (a1 == a2 && (decide (b1 < b2) || (b1 == b2 && decide (c1 < c2))))

/-- The version-string stage of the gate (`runtime.py` 185-201): a non-string
`meta.version` means no check; then the `0.0.0` sentinel, the two parses, and
the comparison. -/
def gateVersion (norm : String → Option (Int × Int × Int)) (mv : String)
    (verVal : PyVal) : Except SDError Unit :=
  match verVal with
  | .str cliVersion =>
    if cliVersion = "0.0.0" then .ok ()
    else
      match norm cliVersion, norm mv with
      | some parsedCli, some parsedMin =>
        if versionLt parsedCli parsedMin then
          .error ⟨.str "CLI_VERSION_UNSUPPORTED",
            .dict [("cliVersion", .str cliVersion), ("minVersion", .str mv)], .none⟩
        else .ok ()
      | _, _ => .ok ()
  | _ => .ok ()

/-- The `meta`-object stage of the gate (`runtime.py` 181-183): a non-dict
`meta` means no check. -/
def gateMeta (norm : String → Option (Int × Int × Int)) (mv : String)
    (metaVal : PyVal) : Except SDError Unit :=
  match metaVal with
  | .dict metaFields => gateVersion norm mv (dget metaFields "version")
  | _ => .ok ()

/-- The version gate body, abstracted over the version parser so that the
source form and the claim-side forms share their common structure. -/
def gateWith (norm : String → Option (Int × Int × Int)) (minVersion envelope : PyVal) :
    Except SDError Unit :=
  match minVersion with
  | .str mv => gateMeta norm mv (pget envelope "meta")
  | _ => .ok ()

/-- Translation of `_ensure_cli_version_compatible` (`runtime.py` 175-201):
no declared string minimum, no dict `meta`, no string `meta.version`, the
`0.0.0` sentinel, or an unparsable version on either side mean no check;
otherwise fail iff the reported version is strictly below the minimum. -/
def ensure_cli_version_compatible (minVersion envelope : PyVal) : Except SDError Unit :=
  gateWith normalized_version minVersion envelope

/-- A version component per the claim's words: a non-negative integer. -/
def specVersionComponent? (cs : List Char) : Option Int :=
  match pyIntChars? cs with
  | some n => if 0 ≤ n then some n else Option.none
  | Option.none => Option.none

/-- Version parsing per C3's literal words: exactly three dot-separated
non-negative integers (ignoring any `-suffix` pre-release tag). -/
def specNormalizedLiteral (version : String) : Option (Int × Int × Int) :=
  let core := version.toList.takeWhile (fun c => c ≠ '-')
  match splitChar '.' core with
  | [p0, p1, p2] =>
    match specVersionComponent? p0, specVersionComponent? p1, specVersionComponent? p2 with
    | some a, some b, some c => some (a, b, c)
    | _, _, _ => Option.none
  | _ => Option.none

/-- Version parsing per the amended claim: at least three dot-separated
components whose first three are non-negative integers, extra components
ignored (still ignoring any `-suffix` pre-release tag). -/
def specNormalizedAmended (version : String) : Option (Int × Int × Int) :=
  let core := version.toList.takeWhile (fun c => c ≠ '-')
  match splitChar '.' core with
  | p0 :: p1 :: p2 :: _ =>
    match specVersionComponent? p0, specVersionComponent? p1, specVersionComponent? p2 with
    | some a, some b, some c => some (a, b, c)
    | _, _, _ => Option.none
  | _ => Option.none

/-- The version gate per C3's literal words. -/
def specGateLiteral (minVersion envelope : PyVal) : Except SDError Unit :=
  gateWith specNormalizedLiteral minVersion envelope

/-- The version gate per the amended claim. -/
def specGateAmended (minVersion envelope : PyVal) : Except SDError Unit :=
  gateWith specNormalizedAmended minVersion envelope

/-!
Dispatch validator — `tools_api.py`: `_validate_dispatch_args` (lines
366-459). The generated `OPERATION_INDEX` is a parameter (an association
list from operation id to the operation object). The argument map keeps its
Python-dict insertion order.
-/

/-- Python `OPERATION_INDEX.get(operation_id)`. -/
def opIndexGet (opIndex : List (String × PyVal)) (operation_id : String) : Option PyVal :=
  (opIndex.find? (fun p => p.1 == operation_id)).map (fun p => p.2)

/-- The set of declared parameter names: `param.get('name')` of every dict
param whose name is a string (`tools_api.py` line 376). -/
def allowedNames (params : List PyVal) : List String :=
  params.filterMap (fun p =>
    match p with
    | .dict fs =>
      match dget fs "name" with
      | .str n => some n
      | _ => Option.none
    | _ => Option.none)

/-- The first argument key not among the declared names (`tools_api.py`
lines 377-383). -/
def firstUnknownKey (allowed : List String) (args : List (String × PyVal)) : Option String :=
  args.findSome? (fun kv => if allowed.contains kv.1 then Option.none else some kv.1)

/-- The first required param whose argument value is `None` (`tools_api.py`
lines 386-397). -/
def firstMissingRequired (params : List PyVal) (args : List (String × PyVal)) : Option String :=
  params.findSome? (fun p =>
    match p with
    | .dict fs =>
      match dget fs "name" with
      | .str name =>
        if pyTruthy (dget fs "required") then
          match dget args name with
          | .none => some name
          | _ => Option.none
        else Option.none
      | _ => Option.none
    | _ => Option.none)

/-- Presence of an argument value (`tools_api.py` lines 404-409): a list is
present when non-empty; any other value is present unless it is `None`. -/
def is_present : PyVal → Bool
  | .none => false
  | .list xs => !xs.isEmpty
  | _ => true

/-- Python `args.get(name)` where the constraint name may be any value; a
non-string name never matches a (string) argument key. -/
def argGetBy (args : List (String × PyVal)) : PyVal → PyVal
  | .str s => dget args s
  | _ => .none

/-- The first mutually-exclusive group (a list) with more than one present
member (`tools_api.py` lines 415-424). -/
def firstMutexViolation (groups : List PyVal) (args : List (String × PyVal)) :
    Option (List PyVal) :=
  groups.findSome? (fun g =>
    match g with
    | .list names =>
      if (names.filter (fun n => is_present (argGetBy args n))).length > 1 then some names
      else Option.none
    | _ => Option.none)

/-- The first requires-one-of group (a list) with no present member
(`tools_api.py` lines 426-435). -/
def firstOneOfViolation (groups : List PyVal) (args : List (String × PyVal)) :
    Option (List PyVal) :=
  groups.findSome? (fun g =>
    match g with
    | .list names =>
      if names.any (fun n => is_present (argGetBy args n)) then Option.none
      else some names
    | _ => Option.none)

/-- Whether a conditional-required rule's trigger condition holds
(`tools_api.py` lines 440-451): with an `equals` key the trigger value must
equal it; with a `present` key, identity with `True` selects a presence
condition, anything else an absence condition; with neither, presence of the
trigger value. -/
def ruleTriggerHolds (rule : List (String × PyVal)) (args : List (String × PyVal)) : Bool :=
  let whenValue :=
    match dget rule "whenParam" with
    | .str s => dget args s
    | _ => .none
  if hasKey rule "equals" then pyEq whenValue (dget rule "equals")
  else if hasKey rule "present" then
    match dget rule "present" with
    | .bool true => is_present whenValue
    | _ => !is_present whenValue
  else is_present whenValue

/-- The first conditional-required rule whose trigger holds while its named
dependent parameter is absent (`tools_api.py` lines 437-459). -/
def firstRequiredWhenViolation (rules : List PyVal) (args : List (String × PyVal)) :
    Option (List (String × PyVal)) :=
  rules.findSome? (fun r =>
    match r with
    | .dict rule =>
      if ruleTriggerHolds rule args then
        match dget rule "param" with
        | .str pname =>
          if is_present (dget args pname) then Option.none else some rule
        | _ => Option.none
      else Option.none
    | _ => Option.none)

/-- An `INVALID_ARGUMENT` error whose details name the operation. -/
def invalidArg (details : List (String × PyVal)) : SDError :=
  ⟨.str "INVALID_ARGUMENT", .dict details, .none⟩

/-- The constraint stage of `_validate_dispatch_args` (`tools_api.py` lines
399-459): a non-dict `constraints` entry means no checks; otherwise the three
constraint scanners run in order. -/
def validateConstraints (operation_id : String) (constraints : PyVal)
    (args : List (String × PyVal)) : Except SDError Unit :=
  match constraints with
  | .dict cFields =>
    match firstMutexViolation
        (match dget cFields "mutuallyExclusive" with
         | .list l => l
         | _ => []) args with
    | some g =>
      .error (invalidArg [("operationId", .str operation_id), ("group", .list g)])
    | Option.none =>
      match firstOneOfViolation
          (match dget cFields "requiresOneOf" with
           | .list l => l
           | _ => []) args with
      | some g =>
        .error (invalidArg [("operationId", .str operation_id), ("group", .list g)])
      | Option.none =>
        match firstRequiredWhenViolation
            (match dget cFields "requiredWhen" with
             | .list l => l
             | _ => []) args with
        | some rule =>
          .error (invalidArg [("operationId", .str operation_id), ("rule", .dict rule)])
        | Option.none => .ok ()
  | _ => .ok ()

/-- Translation of `_validate_dispatch_args` (`tools_api.py` lines 366-459). -/
def validate_dispatch_args (opIndex : List (String × PyVal)) (operation_id : String)
    (args : List (String × PyVal)) : Except SDError Unit :=
  match opIndexGet opIndex operation_id with
  | some (.dict opFields) =>
    match dget opFields "params" with
    | .list params =>
      match firstUnknownKey (allowedNames params) args with
      | some key => .error (invalidArg [("operationId", .str operation_id), ("param", .str key)])
      | Option.none =>
        match firstMissingRequired params args with
        | some name =>
          .error (invalidArg [("operationId", .str operation_id), ("param", .str name)])
        | Option.none => validateConstraints operation_id (dget opFields "constraints") args
    | _ => .error (invalidArg [("operationId", .str operation_id)])
  | _ => .error (invalidArg [("operationId", .str operation_id)])

/-- Well-formedness of the generated operation index, as the code generator
guarantees it: every indexed operation is an object whose `params` entry is a
list. -/
def WFOpIndex (opIndex : List (String × PyVal)) : Prop :=
  ∀ p ∈ opIndex, ∃ fs, p.2 = PyVal.dict fs ∧ ∃ l, dget fs "params" = PyVal.list l

/-- Claim-side condition: some argument key is not among the operation's
declared parameter names. -/
def HasUnknownKey (params : List PyVal) (args : List (String × PyVal)) : Prop :=
  ∃ kv ∈ args, kv.1 ∉ allowedNames params

/-- Claim-side condition: some declared required parameter is absent (its
argument value is null or missing). -/
def HasMissingRequired (params : List PyVal) (args : List (String × PyVal)) : Prop :=
  ∃ p ∈ params, ∃ fs name, p = PyVal.dict fs ∧ dget fs "name" = PyVal.str name ∧
    pyTruthy (dget fs "required") = true ∧ dget args name = PyVal.none

/-- Claim-side condition: a declared structural constraint is violated — a
mutually-exclusive group with more than one present member, a
requires-one-of group with no present member, or a conditional-required rule
whose trigger holds while its named dependent parameter is absent. -/
def HasConstraintViolation (opFields : List (String × PyVal))
    (args : List (String × PyVal)) : Prop :=
  ∃ cFields, dget opFields "constraints" = PyVal.dict cFields ∧
    ((∃ names, PyVal.list names ∈
        (match dget cFields "mutuallyExclusive" with | .list l => l | _ => []) ∧
        (names.filter (fun n => is_present (argGetBy args n))).length > 1) ∨
     (∃ names, PyVal.list names ∈
        (match dget cFields "requiresOneOf" with | .list l => l | _ => []) ∧
        names.all (fun n => !is_present (argGetBy args n)) = true) ∨
     (∃ rule, PyVal.dict rule ∈
        (match dget cFields "requiredWhen" with | .list l => l | _ => []) ∧
        ruleTriggerHolds rule args = true ∧
        ∃ pname, dget rule "param" = PyVal.str pname ∧
          is_present (dget args pname) = false))

/-!
Tool catalog selector — `tools_api.py`: `choose_tools` (lines 223-363),
`_priority_sort` (lines 195-203), `_normalize_features` (lines 185-192),
`_extract_provider_tool_name` (lines 206-220). The packaged catalog and
policy artifacts are already-loaded inputs: a catalog tool is structured as
`catalog.json` declares it, the policy as `tools-policy.json` declares it.
Provider schema objects stay raw `PyVal`s since only their (possibly nested)
name is inspected.
-/

/-- A tool descriptor from the catalog's profile tool lists. -/
structure Tool where
  toolName : String
  operationId : String
  category : String
  mutates : Bool
  requiredCapabilities : Option (List String)
  profile : String

/-- The document-feature summary. -/
structure DocumentFeatures where
  hasTables : Bool
  hasLists : Bool
  hasComments : Bool
  hasTrackedChanges : Bool
  isEmptyDocument : Bool

/-- Python `capability in features` plus `features[capability]` on the
five-key feature mapping. -/
def featuresGet (f : DocumentFeatures) : String → Option Bool
  | "hasTables" => some f.hasTables
  | "hasLists" => some f.hasLists
  | "hasComments" => some f.hasComments
  | "hasTrackedChanges" => some f.hasTrackedChanges
  | "isEmptyDocument" => some f.isEmptyDocument
  | _ => Option.none

/-- Translation of `_normalize_features` (`tools_api.py` 185-192): a missing
summary means all features false. -/
def normalize_features (features : Option DocumentFeatures) : DocumentFeatures :=
  features.getD ⟨false, false, false, false, false⟩

/-- One phase's policy entry (include/exclude category lists and the priority
order). -/
structure PhasePolicy where
  phInclude : List String
  phExclude : List String
  priority : List String

/-- The `defaults` object of `tools-policy.json`. -/
structure PolicyDefaults where
  maxToolsByProfile : List (String × Int)
  minReadTools : Option Int
  foundationalOperationIds : List String
  chooserDecisionVersion : Option String

/-- The loaded `tools-policy.json`. -/
structure ToolsPolicy where
  defaults : PolicyDefaults
  phases : List (String × PhasePolicy)

/-- The caller's policy override. -/
structure ChooserPolicy where
  includeCategories : Option (List String)
  excludeCategories : Option (List String)
  allowMutatingTools : Option Bool
  forceInclude : Option (List String)
  forceExclude : Option (List String)

/-- The caller's budget override. -/
structure ChooserBudget where
  maxTools : Option Int
  minReadTools : Option Int

/-- The caller's task context. -/
structure ChooserTaskContext where
  phase : Option String

/-- The full `choose_tools` input object. -/
structure ChooserInput where
  provider : Option String
  profile : Option String
  documentFeatures : Option DocumentFeatures
  taskContext : Option ChooserTaskContext
  budget : Option ChooserBudget
  policy : Option ChooserPolicy

/-- The empty policy override (Python `input.get('policy', {})`). -/
def emptyChooserPolicy : ChooserPolicy :=
  ⟨Option.none, Option.none, Option.none, Option.none, Option.none⟩

/-- One entry of the `excluded` output list. -/
structure ExclEntry where
  toolName : String
  reason : String

/-- One entry of the `selected` output list. -/
structure SelectedEntry where
  operationId : String
  toolName : String
  category : String
  mutates : Bool
  profile : String

/-- The `selectionMeta` output object. -/
structure SelectionMeta where
  profile : String
  phase : String
  maxTools : Int
  minReadTools : Int
  selectedCount : Nat
  decisionVersion : String
  provider : String

/-- The `choose_tools` result object. -/
structure ChooseResult where
  tools : List PyVal
  selected : List SelectedEntry
  excluded : List ExclEntry
  selectionMeta : SelectionMeta

/-- The reason `should_include` rejects a tool, if any (`tools_api.py` lines
265-286): a first required capability that the document features lack, then a
mutating tool while mutations are disallowed, then a category outside a
non-empty include set, then a category in the exclude set. -/
def excludeReason (allowMutating : Bool) (includeCats excludeCats : List String)
    (features : DocumentFeatures) (tool : Tool) : Option ExclEntry :=
  match (tool.requiredCapabilities.getD []).findSome? (fun cap =>
    match featuresGet features cap with
    | some false => some cap
    | _ => Option.none) with
  | some _ => some ⟨tool.toolName, "missing-required-capability"⟩
  | Option.none =>
    if !allowMutating && tool.mutates then some ⟨tool.toolName, "mutations-disabled"⟩
    else if !includeCats.isEmpty && !includeCats.contains tool.category then
      some ⟨tool.toolName, "category-not-included"⟩
    else if excludeCats.contains tool.category then
      some ⟨tool.toolName, "phase-category-excluded"⟩
    else Option.none

/-- The candidate-pool pass (`tools_api.py` line 288): keep every tool the
reason function admits, recording an exclusion entry for every rejected one. -/
def candidateScan (reasonOf : Tool → Option ExclEntry) :
    List Tool → List Tool × List ExclEntry
  | [] => ([], [])
  | t :: rest =>
    let r := candidateScan reasonOf rest
    match reasonOf t with
    | some e => (r.1, e :: r.2)
    | Option.none => (t :: r.1, r.2)

/-- The force-exclude pass (`tools_api.py` lines 290-297): drop every
candidate named in the force-exclude set, recording `force-excluded`. -/
def forceExcludeScan (forceExcluded : List String) :
    List Tool → List Tool × List ExclEntry
  | [] => ([], [])
  | t :: rest =>
    let r := forceExcludeScan forceExcluded rest
    if forceExcluded.contains t.toolName then (r.1, ⟨t.toolName, "force-excluded"⟩ :: r.2)
    else (t :: r.1, r.2)

/-- Python `{str(tool.get('toolName')): tool for tool in profile_tools}.get(name)`:
the dict comprehension keeps the last tool of each name. -/
def indexByName (pool : List Tool) (name : String) : Option Tool :=
  (pool.filter (fun t => t.toolName == name)).getLast?

/-- The force-include pass (`tools_api.py` lines 299-305): look each forced
name up in the full profile pool, appending hits and recording
`not-in-profile` for misses. -/
def forceIncludeScan (pool : List Tool) :
    List String → List Tool × List ExclEntry
  | [] => ([], [])
  | n :: rest =>
    let r := forceIncludeScan pool rest
    match indexByName pool n with
    | some t => (t :: r.1, r.2)
    | Option.none => (r.1, ⟨n, "not-in-profile"⟩ :: r.2)

/-- One Python dict assignment `d[k] = t` on an insertion-ordered dict:
an existing key keeps its position but takes the new value, a new key is
appended. -/
def dictInsert (acc : List (String × Tool)) (k : String) (t : Tool) : List (String × Tool) :=
  if acc.any (fun p => p.1 == k) then acc.map (fun p => if p.1 == k then (k, t) else p)
  else acc ++ [(k, t)]

/-- The de-duplication pass (`tools_api.py` lines 307-310): a dict keyed by
tool name is built in list order and its values are read back, so a name
keeps its first position but its last value. -/
def dedupeByName (ts : List Tool) : List Tool :=
  (ts.foldl (fun acc t => dictInsert acc t.toolName t) []).map (fun p => p.2)

/-- Last index of a category in the priority list, Python's
`{category: index for index, category in enumerate(priority)}.get(c, 10000)`
(a duplicated category keeps its last index). -/
def priorityIdx (priority : List String) (c : String) : Nat :=
  match (priority.enum.filter (fun p => p.2 == c)).getLast? with
  | some p => p.1
  | Option.none => 10000

/-- Lexicographic (code-point) order on character lists, Python string `<=`. -/
def strLeChars : List Char → List Char → Bool
  | [], _ => true
  | _ :: _, [] => false
  | a :: as, b :: bs =>
    if a.toNat < b.toNat then true
    else if b.toNat < a.toNat then false
    else strLeChars as bs

/-- Python string `<=` (lexicographic on code points). -/
def pyStrLe (a b : String) : Bool := strLeChars a.data b.data

/-- The sort key order of `_priority_sort`: category rank first, tool name as
the tie-break. -/
def toolLe (priority : List String) (a b : Tool) : Bool :=
  let ka := priorityIdx priority a.category
  let kb := priorityIdx priority b.category
  decide (ka < kb) || (ka == kb && pyStrLe a.toolName b.toolName)

/-- Translation of `_priority_sort` (`tools_api.py` 195-203): a stable sort
by (category rank, tool name). Python sorting is stable, and so is this
insertion sort: each element is inserted into the already-sorted part built
from the elements after it, landing before any element tied with it, so tied
elements keep their input order. -/
def priority_sort (tools : List Tool) (priority : List String) : List Tool :=
  List.insertionSort (fun a b => toolLe priority a b = true) tools

/-- The foundational-first loop (`tools_api.py` lines 313-318): append
foundational tools until the selection reaches the minimum-read target or the
max-tools cap. -/
def foundationalLoop (minRead maxTools : Nat) (sel : List Tool) : List Tool → List Tool
  | [] => sel
  | t :: rest =>
    if sel.length ≥ minRead ∨ sel.length ≥ maxTools then sel
    else foundationalLoop minRead maxTools (sel ++ [t]) rest

/-- The budget loop (`tools_api.py` lines 322-326): append remaining tools
until the cap, recording `budget-trim` for each overflow tool. -/
def budgetLoop (maxTools : Nat) (sel : List Tool) (excl : List ExclEntry) :
    List Tool → List Tool × List ExclEntry
  | [] => (sel, excl)
  | t :: rest =>
    if sel.length ≥ maxTools then
      budgetLoop maxTools sel (excl ++ [⟨t.toolName, "budget-trim"⟩]) rest
    else budgetLoop maxTools (sel ++ [t]) excl rest

/-- The selection stage (`tools_api.py` lines 312-326) over the de-duplicated
candidate pool: foundational tools first, then the priority-sorted remainder
under the budget. -/
def chooseSelection (candidates : List Tool) (foundationalIds : List String)
    (priority : List String) (minRead maxTools : Nat) (excl : List ExclEntry) :
    List Tool × List ExclEntry :=
  let foundational := candidates.filter (fun t => foundationalIds.contains t.operationId)
  let sel1 := foundationalLoop minRead maxTools [] foundational
  let selNames := sel1.map (fun t => t.toolName)
  let remaining :=
    (priority_sort candidates priority).filter (fun t => !selNames.contains t.toolName)
  budgetLoop maxTools sel1 excl remaining

/-- Translation of `_extract_provider_tool_name` (`tools_api.py` 206-220). -/
def extract_provider_tool_name (tool : PyVal) : Option String :=
  match tool with
  | .dict fs =>
    match dget fs "name" with
    | .str n => some n
    | _ =>
      match dget fs "function" with
      | .dict fn =>
        match dget fn "name" with
        | .str m => some m
        | _ => Option.none
      | _ => Option.none
  | _ => Option.none

/-- The provider index (`tools_api.py` lines 331-337): a dict from extracted
name to provider schema object, built in list order (later entries
overwrite), then looked up. -/
def providerIndexGet (providerTools : List PyVal) (name : String) : Option PyVal :=
  ((providerTools.filterMap (fun t =>
      match t with
      | .dict fs => (extract_provider_tool_name (.dict fs)).map (fun n => (n, t))
      | _ => Option.none)).filter (fun p => p.1 == name)).getLast?.map (fun p => p.2)

/-- The allowed provider names (`tools_api.py` line 225). -/
def providerNames : List String := ["openai", "anthropic", "vercel", "generic"]

/-- The allowed phases (`tools_api.py` line 234). -/
def phaseNames : List String := ["read", "locate", "mutate", "review"]

/-- Input validation of `choose_tools` (`tools_api.py` lines 224-235):
provider, profile and phase existence and enumeration checks, resolving their
effective values. -/
def resolveRequest (input : ChooserInput) : Except SDError (String × String × String) :=
  match input.provider with
  | some provider =>
    if providerNames.contains provider then
      let profile := input.profile.getD "intent"
      if profile = "intent" ∨ profile = "operation" then
        let phase := (input.taskContext.bind (fun tc => tc.phase)).getD "read"
        if phaseNames.contains phase then .ok (provider, profile, phase)
        else .error ⟨.str "INVALID_ARGUMENT", .dict [("phase", .str phase)], .none⟩
      else .error ⟨.str "INVALID_ARGUMENT", .dict [("profile", .str profile)], .none⟩
    else
      .error ⟨.str "INVALID_ARGUMENT", .dict [("provider", .str provider)], .none⟩
  | Option.none => .error ⟨.str "INVALID_ARGUMENT", .dict [("provider", .none)], .none⟩

/-- The deduplicated candidate pool of a `choose_tools` call (`tools_api.py`
lines 288-310): admission filtering, then force-exclude, then force-include,
then name de-duplication. -/
def choosePool (profileTools : List Tool) (policy : ChooserPolicy)
    (allowMutating : Bool) (includeCats excludeCats : List String)
    (features : DocumentFeatures) : List Tool × List ExclEntry :=
  let c := candidateScan (excludeReason allowMutating includeCats excludeCats features)
    profileTools
  let f := forceExcludeScan (policy.forceExclude.getD []) c.1
  let g := forceIncludeScan profileTools (policy.forceInclude.getD [])
  (dedupeByName (f.1 ++ g.1), c.2 ++ f.2 ++ g.2)

/-- The resolved configuration of a `choose_tools` call after input
validation, catalog lookup, budget/policy resolution and the candidate-pool
passes (`tools_api.py` lines 224-310). -/
structure ResolvedChoice where
  provider : String
  profile : String
  phase : String
  profileTools : List Tool
  maxToolsC : Int
  minReadC : Int
  phasePolicy : PhasePolicy
  pool : List Tool × List ExclEntry

/-- The first half of `choose_tools` (`tools_api.py` lines 224-310): validate
the request, look the profile's tools up in the catalog, resolve the budget
(requested values defaulted from policy, clamped), the effective category
sets and the mutation switch, and run the candidate-pool passes. -/
def resolveChoice (catalogProfiles : List (String × List Tool))
    (toolsPolicy : ToolsPolicy) (input : ChooserInput) : Except SDError ResolvedChoice :=
  match resolveRequest input with
  | .error e => .error e
  | .ok (provider, profile, phase) =>
    match (catalogProfiles.find? (fun p => p.1 == profile)).map (fun p => p.2) with
    | Option.none =>
      .error ⟨.str "TOOLS_ASSET_INVALID", .dict [("profile", .str profile)], .none⟩
    | some profileTools =>
      let policy := input.policy.getD emptyChooserPolicy
      let budget := (input.budget.getD ⟨Option.none, Option.none⟩)
      let defaults := toolsPolicy.defaults
      let maxTools0 : Int :=
        budget.maxTools.getD
          (((defaults.maxToolsByProfile.find? (fun p => p.1 == profile)).map
            (fun p => p.2)).getD 12)
      let minRead0 : Int := budget.minReadTools.getD (defaults.minReadTools.getD 2)
      let maxToolsC : Int := max 1 maxTools0
      let minReadC : Int := max 0 minRead0
      let phasePolicy :=
        ((toolsPolicy.phases.find? (fun p => p.1 == phase)).map (fun p => p.2)).getD
          ⟨[], [], []⟩
      let includeCats :=
        match policy.includeCategories with
        | some l => if l.isEmpty then phasePolicy.phInclude else l
        | Option.none => phasePolicy.phInclude
      let excludeCats := policy.excludeCategories.getD [] ++ phasePolicy.phExclude
      let allowMutating := policy.allowMutatingTools.getD (phase == "mutate")
      let features := normalize_features input.documentFeatures
      .ok ⟨provider, profile, phase, profileTools, maxToolsC, minReadC, phasePolicy,
        choosePool profileTools policy allowMutating includeCats excludeCats features⟩

/-- Translation of `choose_tools` (`tools_api.py` lines 223-363). The
catalog's per-profile tool lists and the provider bundles' per-profile schema
lists are already-loaded parameters. -/
def choose_tools (catalogProfiles : List (String × List Tool))
    (toolsPolicy : ToolsPolicy) (providerProfileTools : String → String → List PyVal)
    (input : ChooserInput) : Except SDError ChooseResult :=
  match resolveChoice catalogProfiles toolsPolicy input with
  | .error e => .error e
  | .ok rc =>
    let defaults := toolsPolicy.defaults
    let sel := chooseSelection rc.pool.1 defaults.foundationalOperationIds
      rc.phasePolicy.priority rc.minReadC.toNat rc.maxToolsC.toNat rc.pool.2
    let providerTools := providerProfileTools rc.provider rc.profile
    let selectedProviderTools :=
      (sel.1.map (fun t => t.toolName)).filterMap (fun n => providerIndexGet providerTools n)
    .ok
      { tools := selectedProviderTools
        selected := sel.1.map (fun t =>
          ⟨t.operationId, t.toolName, t.category, t.mutates, t.profile⟩)
        excluded := sel.2
        selectionMeta :=
          ⟨rc.profile, rc.phase, rc.maxToolsC, rc.minReadC, sel.1.length,
            defaults.chooserDecisionVersion.getD "v1", rc.provider⟩ }

/-- The effective max-tools cap per C5's words: the requested `maxTools`,
defaulted from the policy's per-profile table (or 12) when unspecified,
clamped to be at least 1. -/
def specEffectiveMaxTools (toolsPolicy : ToolsPolicy) (profile : String)
    (budget : Option ChooserBudget) : Int :=
  max 1
    (((budget.getD ⟨Option.none, Option.none⟩).maxTools).getD
      (((toolsPolicy.defaults.maxToolsByProfile.find? (fun p => p.1 == profile)).map
        (fun p => p.2)).getD 12))

/-!
Session resolver and collaboration guard — `runtime.py`: `_get_state_root`
(204-208), `_read_text`/`_read_json` (211-231), `_resolve_active_session_id`
(234-242), `_is_collab_session` (245-250), `_derive_session_bound_ids`
(145-157), `_target_session_id` (253-269), `_reject_python_collaboration`
(272-292). The operating system is a record of explicit functions: the file
system read, `json.loads`, `os.environ`, the absolute working directory,
the home directory, the content hash, and `os.path.abspath`.
-/

/-- The ambient system a runtime call observes. -/
structure Sys where
  readTextFs : String → Option String
  jloads : String → Option PyVal
  environGet : String → Option String
  cwdAbs : String
  homeDir : String
  sha256hex : String → String
  abspathOf : String → String

/-- Python `a or b` on optional strings (an empty string is falsy). -/
def pyOrStr (a b : Option String) : Option String :=
  match a with
  | some s => if s = "" then b else some s
  | Option.none => b

/-- Translation of `_get_state_root` (`runtime.py` 204-208): the environment
override (call overlay first, process environment second), absolutized; else
the fixed per-user default path. -/
def get_state_root (sys : Sys) (env : String → Option String) : String :=
  match pyOrStr (env "SUPERDOC_CLI_STATE_DIR") (sys.environGet "SUPERDOC_CLI_STATE_DIR") with
  | some s =>
    if s = "" then pjoin (pjoin (pjoin sys.homeDir ".superdoc-cli") "state") "v1"
    else sys.abspathOf s
  | Option.none => pjoin (pjoin (pjoin sys.homeDir ".superdoc-cli") "state") "v1"

/-- Translation of `_read_text` (`runtime.py` 211-216): a failed read is `none`. -/
def read_text (sys : Sys) (path : String) : Option String :=
  sys.readTextFs path

/-- Translation of `_read_json` (`runtime.py` 219-231): read, parse, and keep
only objects. -/
def read_json (sys : Sys) (path : String) : Option (List (String × PyVal)) :=
  match read_text sys path with
  | Option.none => Option.none
  | some raw =>
    match sys.jloads raw with
    | some (.dict fs) => some fs
    | _ => Option.none

/-- Translation of `_resolve_active_session_id` (`runtime.py` 234-242): read
the per-project active-session marker (keyed by the truncated content hash of
the absolute working directory) and strip it; an absent, empty or
whitespace-only marker yields no session. -/
def resolve_active_session_id (sys : Sys) (env : String → Option String) : Option String :=
  let projectRoot := sys.cwdAbs
  let projectHash := (sys.sha256hex projectRoot).take 16
  let activePath :=
    pjoin (pjoin (pjoin (get_state_root sys env) "projects") projectHash) "active-session"
  match read_text sys activePath with
  | Option.none => Option.none
  | some raw =>
    if raw = "" then Option.none
    else
      let sessionId := pyStrip raw
      if sessionId = "" then Option.none else some sessionId

/-- Translation of `_is_collab_session` (`runtime.py` 245-250): the session's
persisted metadata object exists, is non-empty, and its `sessionType` equals
`collab`. -/
def is_collab_session (sys : Sys) (env : String → Option String) (sessionId : String) : Bool :=
  let metadataPath :=
    pjoin (pjoin (pjoin (get_state_root sys env) "contexts") sessionId) "metadata.json"
  match read_json sys metadataPath with
  | Option.none => false
  | some fields =>
    if fields.isEmpty then false
    else pyEq (dget fields "sessionType") (.str "collab")

/-- Translation of `_derive_session_bound_ids` (`runtime.py` 145-157): every
contract operation, other than `doc.open`, that declares a `sessionId`
parameter. -/
def derive_session_bound_ids (contractOps : List (String × PyVal)) : List String :=
  contractOps.filterMap (fun p =>
    if p.1 == "doc.open" then Option.none
    else
      match p.2 with
      | .dict opFields =>
        match dget opFields "params" with
        | .list params =>
          if params.any (fun q =>
              match q with
              | .dict qf =>
                match dget qf "name" with
                | .str n => n == "sessionId"
                | _ => false
              | _ => false) then
            some p.1
          else Option.none
        | _ => Option.none
      | _ => Option.none)

/-- Translation of `_target_session_id` (`runtime.py` 253-269). -/
def target_session_id (sys : Sys) (contractOps : List (String × PyVal))
    (operation_id : String) (params : List (String × PyVal))
    (env : String → Option String) : Option String :=
  if operation_id = "doc.session.close" then
    match dget params "sessionId" with
    | .str v => if v ≠ "" then some v else Option.none
    | _ => Option.none
  else if !(derive_session_bound_ids contractOps).contains operation_id then Option.none
  else
    match dget params "doc" with
    | .none =>
      match dget params "sessionId" with
      | .str v => if v ≠ "" then some v else resolve_active_session_id sys env
      | _ => resolve_active_session_id sys env
    | _ => Option.none

/-- The collaboration-related fields of the document-opening operation. -/
def collabFields : List String := ["collaboration", "collabUrl", "collabDocumentId"]

/-- The first collaboration field a parameter object sets (the scan of
`runtime.py` 279-281). -/
def collabFieldScan (params : List (String × PyVal)) : Option String :=
  collabFields.findSome? (fun field =>
    match dget params field with
    | .none => Option.none
    | _ => some field)

/-- Translation of `_reject_python_collaboration` (`runtime.py` 272-292). -/
def reject_python_collaboration (sys : Sys) (contractOps : List (String × PyVal))
    (operation_id : String) (params : List (String × PyVal))
    (env : String → Option String) : Except SDError Unit :=
  if operation_id = "doc.open" then
    match collabFieldScan params with
    | some field =>
      .error ⟨.str "NOT_SUPPORTED",
        .dict [("operation", .str operation_id), ("field", .str field)], .none⟩
    | Option.none => .ok ()
  else
    match target_session_id sys contractOps operation_id params env with
    | Option.none => .ok ()
    | some sessionId =>
      if sessionId = "" then .ok ()
      else if is_collab_session sys env sessionId then
        .error ⟨.str "NOT_SUPPORTED",
          .dict [("operation", .str operation_id), ("sessionId", .str sessionId)], .none⟩
      else .ok ()

/-- Claim-side condition for C8: the resolved target session has persisted
metadata that parses to a non-empty object whose `sessionType` equals
`collab`. -/
def SpecIsCollab (sys : Sys) (env : String → Option String) (sessionId : String) : Prop :=
  ∃ raw fields,
    sys.readTextFs
      (pjoin (pjoin (pjoin (get_state_root sys env) "contexts") sessionId) "metadata.json") =
      some raw ∧
    sys.jloads raw = some (PyVal.dict fields) ∧
    dget fields "sessionType" = PyVal.str "collab"

/-- Claim-side resolver for C9's close rule: the session-closing operation is
resolved purely from its own explicit session-identifier argument. -/
def specExplicitSessionId (params : List (String × PyVal)) : Option String :=
  match dget params "sessionId" with
  | .str v => if v ≠ "" then some v else Option.none
  | _ => Option.none

/-- Claim-side marker read for C9: the active session is the stripped content
of the per-project marker file (keyed by the truncated content hash of the
absolute working directory under the state root), an absent or
blank marker yielding none. -/
def specActiveSession (sys : Sys) (env : String → Option String) : Option String :=
  match sys.readTextFs
      (pjoin (pjoin (pjoin (get_state_root sys env) "projects")
        ((sys.sha256hex sys.cwdAbs).take 16)) "active-session") with
  | some raw => if pyStrip raw = "" then Option.none else some (pyStrip raw)
  | Option.none => Option.none

/-!
Runtime invocation tail — `runtime.py`: `SuperDocSyncRuntime.invoke` lines
323-334 (the async variant, lines 367-378, is character-identical): decode
the envelope, apply the version gate, then branch on the envelope's `ok`
field, re-raising the CLI-reported error with the process exit code attached.
-/

/-- Translation of the post-spawn section of `invoke` (`runtime.py` 323-334):
`envelope['data']` is modelled as a key lookup (the decoder guarantees an
object; a missing `data` key would raise in Python and yields `None` here,
which no claim exercises). -/
def invokeAfterParse (minVersion envelope returncode : PyVal) : Except SDError PyVal :=
  match ensure_cli_version_compatible minVersion envelope with
  | .error e => .error e
  | .ok _ =>
    if pyTruthy (pget envelope "ok") then .ok (pget envelope "data")
    else
      let err := pgetD envelope "error" (.dict [])
      .error ⟨pgetD err "code" (.str "COMMAND_FAILED"), pget err "details", returncode⟩

/-- The decode step of `invoke` followed by the gate and the `ok` branch. -/
def invokeTail (jloads : String → Option PyVal) (minVersion : PyVal)
    (stdout stderr : String) (returncode : PyVal) : Except SDError PyVal :=
  match parse_envelope jloads stdout stderr with
  | .error e => .error e
  | .ok envelope => invokeAfterParse minVersion envelope returncode

/-!
Concrete fixtures used by counterexamples and witnesses. Each `jloads`-style
function is a stand-in for `json.loads` that is consistent with Python's
parser on every string it is actually applied to.
-/

/-- A `json.loads` stand-in: exactly the object `\x7b"ok": true\x7d` parses
(to an object with an `ok` key); every other candidate arising in its uses —
in particular the multi-line text `x\n \x7b"ok": true\x7d` — is invalid JSON
and fails, as it does in Python. -/
def jloadsFix : String → Option PyVal := fun s =>
  if s = "\x7b\"ok\": true\x7d" then some (.dict [("ok", .bool true)]) else Option.none

/-- An envelope reporting version `0.9.0.5` (four dot-separated components). -/
def envelopeV0905 : PyVal :=
  .dict [("ok", .bool true), ("data", .dict []), ("meta", .dict [("version", .str "0.9.0.5")])]

/-- An envelope reporting version `0.9.0`. -/
def envelopeV090 : PyVal :=
  .dict [("ok", .bool true), ("data", .dict []), ("meta", .dict [("version", .str "0.9.0")])]

/-- An envelope reporting the development sentinel version `0.0.0`. -/
def envelopeV000 : PyVal :=
  .dict [("ok", .bool true), ("data", .dict []), ("meta", .dict [("version", .str "0.0.0")])]

/-- A one-operation index: `doc.open` with one required `file` param. -/
def opIndexFix : List (String × PyVal) :=
  [("doc.open", .dict [("params", .list [.dict
    [("name", .str "file"), ("kind", .str "doc"), ("required", .bool true)]])])]

/-- A read-only catalog tool. -/
def toolRead : Tool := ⟨"tool_read", "doc.read", "read", false, Option.none, "intent"⟩

/-- A second read-only catalog tool. -/
def toolFind : Tool := ⟨"tool_find", "doc.find", "read", false, Option.none, "intent"⟩

/-- A foundational catalog tool (its operation id is in the foundational set
of `toolsPolicyFound`). -/
def toolInfo : Tool := ⟨"tool_info", "doc.info", "read", false, Option.none, "intent"⟩

/-- A minimal tools policy: no per-profile caps, no declared minimum read
tools, no foundational operations, no phase entries. -/
def toolsPolicyFix : ToolsPolicy := ⟨⟨[], Option.none, [], Option.none⟩, []⟩

/-- A tools policy declaring `doc.info` foundational. -/
def toolsPolicyFound : ToolsPolicy := ⟨⟨[], Option.none, ["doc.info"], Option.none⟩, []⟩

/-- A provider bundle resolver offering no provider schema objects (the
claims under test concern the `selected`/`excluded` lists). -/
def providerToolsNone : String → String → List PyVal := fun _ _ => []

/-- A chooser input whose policy force-excludes and force-includes the same
tool name. -/
def inputForceBoth : ChooserInput :=
  ⟨some "generic", some "intent", Option.none, Option.none, Option.none,
    some ⟨Option.none, Option.none, Option.none, some ["tool_read"], some ["tool_read"]⟩⟩

/-- A chooser input requesting at most one tool. -/
def inputMaxOne : ChooserInput :=
  ⟨some "generic", some "intent", Option.none, Option.none,
    some ⟨some 1, some 0⟩, Option.none⟩

/-- A chooser input requesting at most two tools with a minimum of one read
tool. -/
def inputMinOneMaxTwo : ChooserInput :=
  ⟨some "generic", some "intent", Option.none, Option.none,
    some ⟨some 2, some 1⟩, Option.none⟩

/-- The selected tool names of a selection result (empty on error). -/
def selectedNamesOf : Except SDError ChooseResult → List String
  | .ok r => r.selected.map (fun t => t.toolName)
  | .error _ => []

/-- A system with no readable files, for calls that must not touch state. -/
def sysEmpty : Sys :=
  ⟨fun _ => Option.none, fun _ => Option.none, fun _ => Option.none,
    "/work/project", "/home/user", fun _ => "aaaabbbbccccdddd0000", fun s => s⟩

/-- A system with a persisted collab-session metadata file for session `s1`
under the overridden state root `STATE`, and an active-session marker naming
`s9` for the current project. -/
def sysCollab : Sys :=
  ⟨fun p =>
      if p = "STATE/contexts/s1/metadata.json" then some "METARAW"
      else if p = "STATE/projects/aaaabbbbccccdddd/active-session" then some " s9 \n"
      else Option.none,
    fun s =>
      if s = "METARAW" then some (.dict [("sessionType", .str "collab")]) else Option.none,
    fun _ => Option.none,
    "/work/project", "/home/user", fun _ => "aaaabbbbccccdddd0000", fun s => s⟩

/-- An environment overlay overriding the state root to `STATE`. -/
def envState : String → Option String := fun k =>
  if k = "SUPERDOC_CLI_STATE_DIR" then some "STATE" else Option.none

/-- A contract with two session-carrying operations (`doc.session.close` and
`doc.comment.add`) and the exempt `doc.open`. -/
def contractOpsFix : List (String × PyVal) :=
  [("doc.open", .dict [("params", .list [.dict [("name", .str "sessionId")]])]),
   ("doc.session.close", .dict [("params", .list [.dict [("name", .str "sessionId")]])]),
   ("doc.comment.add", .dict [("params", .list [.dict [("name", .str "sessionId")]])])]

/-- An envelope with `ok` false, a CLI-reported error, and version `0.9.0`. -/
def envelopeErr090 : PyVal :=
  .dict [("ok", .bool false),
    ("error", .dict [("code", .str "DOC_LOCKED"), ("details", .str "d")]),
    ("meta", .dict [("version", .str "0.9.0")])]

/-- The serialized form of `envelopeErr090`. -/
def rawErrJson : String :=
  "\x7b\"ok\": false, \"error\": \x7b\"code\": \"DOC_LOCKED\", \"details\": \"d\"\x7d, " ++
    "\"meta\": \x7b\"version\": \"0.9.0\"\x7d\x7d"

/-- A `json.loads` stand-in parsing exactly `rawErrJson` (valid JSON whose
parse in Python is exactly `envelopeErr090`). -/
def jloadsErr : String → Option PyVal := fun s =>
  if s = rawErrJson then some envelopeErr090 else Option.none

/-- A tool named `tool_x` bound to operation `op.a`. -/
def toolXa : Tool := ⟨"tool_x", "op.a", "read", false, Option.none, "intent"⟩

/-- A later tool with the same name `tool_x`, bound to operation `op.b`. -/
def toolXb : Tool := ⟨"tool_x", "op.b", "read", false, Option.none, "intent"⟩

/-!
Theorems. General-purpose bridging lemmas first, then the per-claim results.
-/

theorem string_mk_eq_empty {l : List Char} (h : String.mk l = "") : l = [] := by
  have h2 := congrArg String.data h
  simpa using h2

theorem pyStrip_eq_empty_iff (s : String) :
    pyStrip s = "" ↔ ∀ c ∈ s.toList, isPyWs c = true := by
  unfold pyStrip
  constructor
  · intro h c hc
    have hl := string_mk_eq_empty h
    rw [List.reverse_eq_nil_iff, List.dropWhile_eq_nil_iff] at hl
    have hsplit := List.takeWhile_append_dropWhile isPyWs s.toList
    rw [← hsplit] at hc
    rcases List.mem_append.mp hc with hmem | hmem
    · exact List.mem_takeWhile_imp hmem
    · exact hl c (List.mem_reverse.mpr hmem)
  · intro h
    have h1 : s.toList.dropWhile isPyWs = [] :=
      List.dropWhile_eq_nil_iff.mpr (fun x hx => h x hx)
    rw [h1]
    rfl

theorem startsWith_brace_ne_empty {s : String} (h : startsWithBrace s = true) :
    s ≠ "" := by
  intro he
  subst he
  exact absurd h (by decide)

theorem joinNl_cons_data (line : String) (rest : List String) :
    ∃ t, (joinNl (line :: rest)).data = line.data ++ t := by
  cases rest with
  | nil => exact ⟨[], by simp [joinNl]⟩
  | cons r rs =>
    refine ⟨("\n" ++ joinNl (r :: rs)).data, ?_⟩
    show (line ++ "\n" ++ joinNl (r :: rs)).data = _
    rw [String.data_append, String.data_append, String.data_append]
    simp

theorem amendedLineCandidate_ne_empty {suffix : List String} {c : String}
    (h : amendedLineCandidate suffix = some c) : c ≠ "" := by
  match suffix with
  | [] => exact absurd h (by simp [amendedLineCandidate])
  | line :: rest =>
    simp only [amendedLineCandidate] at h
    by_cases hs : startsWithBrace (pyStrip line) = true
    · rw [if_pos hs] at h
      have hc : c = pyStrip (joinNl (line :: rest)) := (Option.some.inj h).symm
      subst hc
      intro hempty
      have hstripline : pyStrip line ≠ "" := startsWith_brace_ne_empty hs
      have hnotall : ¬ ∀ ch ∈ line.toList, isPyWs ch = true := by
        intro hall
        exact hstripline ((pyStrip_eq_empty_iff line).mpr hall)
      rcases not_forall.mp hnotall with ⟨ch, hch⟩
      have hchmem : ch ∈ line.toList ∧ ¬ isPyWs ch = true := by
        by_cases hm : ch ∈ line.toList
        · exact ⟨hm, fun hw => hch (fun _ => hw)⟩
        · exact absurd (fun hm2 => absurd hm2 hm) hch
      have hall2 := (pyStrip_eq_empty_iff (joinNl (line :: rest))).mp hempty
      rcases joinNl_cons_data line rest with ⟨t, hdata⟩
      have hmem2 : ch ∈ (joinNl (line :: rest)).toList := by
        show ch ∈ (joinNl (line :: rest)).data
        rw [hdata]
        exact List.mem_append.mpr (Or.inl hchmem.1)
      exact hchmem.2 (hall2 ch hmem2)
    · rw [if_neg hs] at h
      exact absurd h (by simp)

theorem extractLoop_eq_tails (lines : List String) :
    extractCandidatesLoop lines = lines.tails.filterMap amendedLineCandidate := by
  induction lines with
  | nil => rfl
  | cons l rest ih =>
    rw [List.tails_cons, List.filterMap_cons]
    by_cases h : startsWithBrace (pyStrip l) = true
    · simp only [extractCandidatesLoop, amendedLineCandidate, if_pos h, ih]
    · simp only [extractCandidatesLoop, amendedLineCandidate, if_neg h, ih]

theorem extract_eq_specAmended (t : String) :
    extract_envelope_candidates t = specCandidatesAmended t := by
  unfold extract_envelope_candidates specCandidatesAmended
  by_cases h : pyStrip t = ""
  · simp [h]
  · simp [h, extractLoop_eq_tails]

theorem mem_extract_ne_empty {t c : String}
    (h : c ∈ extract_envelope_candidates t) : c ≠ "" := by
  rw [extract_eq_specAmended] at h
  unfold specCandidatesAmended at h
  by_cases hs : pyStrip t = ""
  · rw [if_pos hs] at h
    exact absurd h (by simp)
  · rw [if_neg hs] at h
    rcases List.mem_cons.mp h with hc | hc
    · exact hc ▸ hs
    · rcases List.mem_filterMap.mp hc with ⟨suffix, _, hsome⟩
      exact amendedLineCandidate_ne_empty hsome

theorem tryParse_eq_accept (jloads : String → Option PyVal) (cands : List String)
    (h : ∀ c ∈ cands, c ≠ "") :
    try_parse_candidates jloads cands = specAccept jloads cands := by
  induction cands with
  | nil => rfl
  | cons c rest ih =>
    have hc : c ≠ "" := h c (List.mem_cons_self c rest)
    have hrest : ∀ x ∈ rest, x ≠ "" := fun x hx => h x (List.mem_cons_of_mem c hx)
    unfold try_parse_candidates specAccept
    rw [List.findSome?_cons]
    rw [if_neg hc]
    cases hj : jloads c with
    | none => simpa [specAccept] using ih hrest
    | some parsed =>
      by_cases he : isEnvelopeObject parsed = true
      · simp [he]
      · rw [Bool.not_eq_true] at he
        simpa [he, specAccept] using ih hrest

/-- C1 (amended): for every pair of raw output strings, envelope decoding
builds the ranked candidate list from stdout — the whole trimmed text first,
then for every line that (after trimming surrounding whitespace) starts with
a brace, the substring from that line to the end, trimmed — accepts the
first candidate parsing as a JSON object containing the key `ok`, tries
stderr identically only if stdout yields nothing, and otherwise fails with
`COMMAND_FAILED` when both streams are blank and `JSON_PARSE_ERROR`
otherwise, the failure details carrying both raw streams. -/
theorem claim_C1 (jloads : String → Option PyVal) (stdout stderr : String) :
    parse_envelope jloads stdout stderr = specParseEnvelopeAmended jloads stdout stderr := by
  have hout : try_parse_candidates jloads (extract_envelope_candidates stdout) =
      specAccept jloads (specCandidatesAmended stdout) := by
    rw [← extract_eq_specAmended]
    exact tryParse_eq_accept _ _ (fun c hc => mem_extract_ne_empty hc)
  have herr : try_parse_candidates jloads (extract_envelope_candidates stderr) =
      specAccept jloads (specCandidatesAmended stderr) := by
    rw [← extract_eq_specAmended]
    exact tryParse_eq_accept _ _ (fun c hc => mem_extract_ne_empty hc)
  unfold parse_envelope specParseEnvelopeAmended
  rw [hout, herr]
  by_cases hb : pyStrip stdout = "" ∧ pyStrip stderr = ""
  · simp [hb.1, hb.2, specCandidatesAmended, specAccept]
  · rw [if_neg hb]
    cases hA : specAccept jloads (specCandidatesAmended stdout) with
    | some r => simp
    | none =>
      cases hB : specAccept jloads (specCandidatesAmended stderr) with
      | some r => simp
      | none => simp [if_neg hb]

/-- C1 counterexample: on stdout `x\n \x7b"ok": true\x7d` (the envelope line
begins with a space), the code accepts the envelope, while the claimed
procedure — a per-line candidate only for lines that literally start with a
brace — finds no candidate and fails with `JSON_PARSE_ERROR`. -/
theorem claim_C1_counterexample :
    parse_envelope jloadsFix "x\n \x7b\"ok\": true\x7d" "" =
      .ok (.dict [("ok", .bool true)]) ∧
    specParseEnvelopeLiteral jloadsFix "x\n \x7b\"ok\": true\x7d" "" =
      .error ⟨.str "JSON_PARSE_ERROR",
        .dict [("stdout", .str "x\n \x7b\"ok\": true\x7d"), ("stderr", .str ""),
          ("message", .str "Failed to parse envelope JSON.")], .none⟩ ∧
    parse_envelope jloadsFix "x\n \x7b\"ok\": true\x7d" "" ≠
      specParseEnvelopeLiteral jloadsFix "x\n \x7b\"ok\": true\x7d" "" := by
  refine ⟨rfl, rfl, ?_⟩
  intro h
  rw [show parse_envelope jloadsFix "x\n \x7b\"ok\": true\x7d" "" =
      .ok (.dict [("ok", .bool true)]) from rfl] at h
  rw [show specParseEnvelopeLiteral jloadsFix "x\n \x7b\"ok\": true\x7d" "" =
      .error ⟨.str "JSON_PARSE_ERROR",
        .dict [("stdout", .str "x\n \x7b\"ok\": true\x7d"), ("stderr", .str ""),
          ("message", .str "Failed to parse envelope JSON.")], .none⟩ from rfl] at h
  exact Except.noConfusion h

theorem foldr_two_tokens (flag : String) (items : List PyVal) :
    items.foldr (fun item acc => flag :: pyStr item :: acc) [] =
    List.flatten (items.map (fun item => [flag, pyStr item])) := by
  induction items with
  | nil => rfl
  | cons x xs ih => simp [ih]

/-- C2: the argument encoder processes declared params in declaration order
and, per param: an absent value fails with `INVALID_ARGUMENT` when required
and emits nothing otherwise; kind `doc` appends the stringified value as a
bare positional token; otherwise `--flag` (override or param name) followed,
for boolean type, by a literal `true`/`false` token, for string-array type by
the flag repeated once per element (failing with `INVALID_ARGUMENT` on a
non-list), for json type by one serialized-JSON token, and for any other
type by the stringified value. -/
theorem claim_C2 :
    (∀ (spec : ParamSpec) (value : PyVal),
      encode_param spec value = specEncodeParamClaim spec value) ∧
    (∀ (params : List ParamSpec) (payload : List (String × PyVal)),
      encodeParams params payload = specEncodeParamsClaim params payload) := by
  have h1 : ∀ (spec : ParamSpec) (value : PyVal),
      encode_param spec value = specEncodeParamClaim spec value := by
    intro spec value
    cases value with
    | none => rfl
    | bool b => rfl
    | int n => rfl
    | str s => rfl
    | dict fs => rfl
    | list xs =>
      simp only [encode_param, specEncodeParamClaim]
      by_cases hk : spec.kind = "doc"
      · simp [hk]
      · simp only [if_neg hk]
        by_cases hb : spec.type = "boolean"
        · simp [hb]
        · simp only [if_neg hb]
          by_cases hsa : spec.type = "string[]"
          · simp [hsa, foldr_two_tokens]
          · simp [hsa]
  refine ⟨h1, ?_⟩
  intro params payload
  induction params with
  | nil => rfl
  | cons spec rest ih =>
    simp only [encodeParams, specEncodeParamsClaim, List.foldr_cons]
    rw [h1, ih]
    rfl

theorem splitChar_ne_nil (sep : Char) (l : List Char) : splitChar sep l ≠ [] := by
  induction l with
  | nil => simp [splitChar]
  | cons c rest ih =>
    simp only [splitChar]
    by_cases h : c = sep
    · simp [h]
    · rw [if_neg h]
      cases hs : splitChar sep rest with
      | nil => simp
      | cons chunk more => simp

theorem mem_splitChar_subset {sep : Char} {l chunk : List Char}
    (h : chunk ∈ splitChar sep l) : ∀ c ∈ chunk, c ∈ l := by
  induction l generalizing chunk with
  | nil =>
    simp only [splitChar, List.mem_singleton] at h
    subst h
    intro c hc
    exact absurd hc (List.not_mem_nil c)
  | cons a rest ih =>
    simp only [splitChar] at h
    by_cases ha : a = sep
    · rw [if_pos ha] at h
      rcases List.mem_cons.mp h with hc | hc
      · subst hc
        intro c hc
        exact absurd hc (List.not_mem_nil c)
      · intro c hcc
        exact List.mem_cons_of_mem a (ih hc c hcc)
    · rw [if_neg ha] at h
      cases hs : splitChar sep rest with
      | nil => exact absurd hs (splitChar_ne_nil sep rest)
      | cons ch more =>
        rw [hs] at h
        rcases List.mem_cons.mp h with hc | hc
        · subst hc
          intro c hcc
          rcases List.mem_cons.mp hcc with h1 | h1
          · exact h1 ▸ List.mem_cons_self a rest
          · have hchm : ch ∈ splitChar sep rest := hs ▸ List.mem_cons_self ch more
            exact List.mem_cons_of_mem a (ih hchm c h1)
        · have hcm : chunk ∈ splitChar sep rest := hs ▸ List.mem_cons_of_mem ch hc
          intro c hcc
          exact List.mem_cons_of_mem a (ih hcm c hcc)

theorem pyIntChars_nonneg {cs : List Char} {n : Int}
    (h : pyIntChars? cs = some n) (hnd : '-' ∉ cs) : 0 ≤ n := by
  unfold pyIntChars? at h
  cases ht : ((cs.dropWhile isPyWs).reverse.dropWhile isPyWs).reverse with
  | nil => rw [ht] at h; exact absurd h (by simp [pyIntTrimmed?])
  | cons c ds =>
    rw [ht] at h
    simp only [pyIntTrimmed?] at h
    by_cases hp : c = '+'
    · rw [if_pos hp] at h
      rcases Option.map_eq_some'.mp h with ⟨m, _, hm⟩
      rw [← hm]
      exact Int.ofNat_nonneg m
    · rw [if_neg hp] at h
      by_cases hm : c = '-'
      · exfalso
        apply hnd
        have hct : c ∈ ((cs.dropWhile isPyWs).reverse.dropWhile isPyWs).reverse := by
          rw [ht]; exact List.mem_cons_self c ds
        have h1 : c ∈ (cs.dropWhile isPyWs).reverse.dropWhile isPyWs :=
          List.mem_reverse.mp hct
        have h2 : c ∈ (cs.dropWhile isPyWs).reverse :=
          (List.dropWhile_sublist isPyWs).mem h1
        have h3 : c ∈ cs.dropWhile isPyWs := List.mem_reverse.mp h2
        exact hm ▸ (List.dropWhile_sublist isPyWs).mem h3
      · rw [if_neg hm] at h
        rcases Option.map_eq_some'.mp h with ⟨m, _, hmm⟩
        rw [← hmm]
        exact Int.ofNat_nonneg m

theorem specVersionComponent_eq_pyInt {cs : List Char} (hnd : '-' ∉ cs) :
    specVersionComponent? cs = pyIntChars? cs := by
  unfold specVersionComponent?
  cases hp : pyIntChars? cs with
  | none => rfl
  | some n =>
    have hge := pyIntChars_nonneg hp hnd
    simp [hge]

theorem normalized_eq_specAmended (version : String) :
    normalized_version version = specNormalizedAmended version := by
  simp only [normalized_version, specNormalizedAmended]
  have hnd : ∀ chunk ∈ splitChar '.' (version.toList.takeWhile (fun c => c ≠ '-')),
      '-' ∉ chunk := by
    intro chunk hchunk hmem
    have hc := mem_splitChar_subset hchunk '-' hmem
    have hw := List.mem_takeWhile_imp hc
    simp at hw
  cases hs : splitChar '.' (version.toList.takeWhile (fun c => c ≠ '-')) with
  | nil => rfl
  | cons p0 t0 =>
    cases t0 with
    | nil => rfl
    | cons p1 t1 =>
      cases t1 with
      | nil => rfl
      | cons p2 t2 =>
        have h0 : p0 ∈ splitChar '.' (version.toList.takeWhile (fun c => c ≠ '-')) := by
          rw [hs]; exact List.mem_cons_self _ _
        have h1 : p1 ∈ splitChar '.' (version.toList.takeWhile (fun c => c ≠ '-')) := by
          rw [hs]; exact List.mem_cons_of_mem _ (List.mem_cons_self _ _)
        have h2 : p2 ∈ splitChar '.' (version.toList.takeWhile (fun c => c ≠ '-')) := by
          rw [hs]
          exact List.mem_cons_of_mem _ (List.mem_cons_of_mem _ (List.mem_cons_self _ _))
        simp only [specVersionComponent_eq_pyInt (hnd p0 h0),
          specVersionComponent_eq_pyInt (hnd p1 h1),
          specVersionComponent_eq_pyInt (hnd p2 h2)]

/-- C3 (amended): the version gate does nothing when no string minimum is
declared, when the envelope has no string `meta.version`, when the reported
version is the `0.0.0` sentinel, or when either version fails to parse as at
least three dot-separated components whose first three are non-negative
integers (extra components and any `-suffix` tag ignored); otherwise it
fails with `CLI_VERSION_UNSUPPORTED` carrying both version strings exactly
when the reported version is numerically componentwise below the minimum, so
`0.9.0` against `1.0.0` fails and `0.0.0` never fails. -/
theorem claim_C3 :
    (∀ minVersion envelope,
      ensure_cli_version_compatible minVersion envelope =
        specGateAmended minVersion envelope) ∧
    ensure_cli_version_compatible (.str "1.0.0") envelopeV090 =
      .error ⟨.str "CLI_VERSION_UNSUPPORTED",
        .dict [("cliVersion", .str "0.9.0"), ("minVersion", .str "1.0.0")], .none⟩ ∧
    (∀ minVersion, ensure_cli_version_compatible minVersion envelopeV000 = .ok ()) := by
  refine ⟨?_, rfl, ?_⟩
  · intro minVersion envelope
    unfold ensure_cli_version_compatible specGateAmended
    rw [funext normalized_eq_specAmended]
  · intro minVersion
    cases minVersion <;> rfl

/-- C3 counterexample: the reported version `0.9.0.5` does not parse as three
dot-separated non-negative integers, so the claimed gate does nothing, but
the code parses its first three components and fails with
`CLI_VERSION_UNSUPPORTED` against the minimum `1.0.0`. -/
theorem claim_C3_counterexample :
    ensure_cli_version_compatible (.str "1.0.0") envelopeV0905 =
      .error ⟨.str "CLI_VERSION_UNSUPPORTED",
        .dict [("cliVersion", .str "0.9.0.5"), ("minVersion", .str "1.0.0")], .none⟩ ∧
    specGateLiteral (.str "1.0.0") envelopeV0905 = .ok () ∧
    ensure_cli_version_compatible (.str "1.0.0") envelopeV0905 ≠
      specGateLiteral (.str "1.0.0") envelopeV0905 := by
  refine ⟨rfl, rfl, ?_⟩
  intro h
  rw [show specGateLiteral (.str "1.0.0") envelopeV0905 = .ok () from rfl] at h
  rw [show ensure_cli_version_compatible (.str "1.0.0") envelopeV0905 =
      .error ⟨.str "CLI_VERSION_UNSUPPORTED",
        .dict [("cliVersion", .str "0.9.0.5"), ("minVersion", .str "1.0.0")], .none⟩
    from rfl] at h
  exact Except.noConfusion h

theorem firstUnknownKey_eq_none_iff (allowed : List String) (args : List (String × PyVal)) :
    firstUnknownKey allowed args = Option.none ↔ ¬ (∃ kv ∈ args, kv.1 ∉ allowed) := by
  unfold firstUnknownKey
  rw [List.findSome?_eq_none_iff]
  constructor
  · rintro h ⟨kv, hkv, hna⟩
    have hh := h kv hkv
    by_cases hc : allowed.contains kv.1
    · exact hna (by simpa using hc)
    · rw [if_neg hc] at hh
      exact Option.noConfusion hh
  · intro h kv hkv
    by_cases hc : allowed.contains kv.1
    · rw [if_pos hc]
    · exact absurd ⟨kv, hkv, fun hmem => hc (by simpa using hmem)⟩ h

theorem firstMissingRequired_eq_none_iff (params : List PyVal) (args : List (String × PyVal)) :
    firstMissingRequired params args = Option.none ↔ ¬ HasMissingRequired params args := by
  unfold firstMissingRequired HasMissingRequired
  rw [List.findSome?_eq_none_iff]
  constructor
  · rintro h ⟨p, hp, fs, name, hpd, hname, hreq, habs⟩
    have hh := h p hp
    subst hpd
    simp [hname, hreq, habs] at hh
  · intro h p hp
    cases p with
    | dict fs =>
      cases hname : dget fs "name" with
      | str name =>
        by_cases hreq : pyTruthy (dget fs "required") = true
        · cases habs : dget args name with
          | none => exact absurd ⟨.dict fs, hp, fs, name, rfl, hname, hreq, habs⟩ h
          | bool b => simp [hname, hreq, habs]
          | int n => simp [hname, hreq, habs]
          | str s => simp [hname, hreq, habs]
          | list xs => simp [hname, hreq, habs]
          | dict ds => simp [hname, hreq, habs]
        · rw [Bool.not_eq_true] at hreq
          simp [hname, hreq]
      | none => simp [hname]
      | bool b => simp [hname]
      | int n => simp [hname]
      | list xs => simp [hname]
      | dict ds => simp [hname]
    | none => rfl
    | bool b => rfl
    | int n => rfl
    | str s => rfl
    | list xs => rfl

theorem firstMutexViolation_eq_none_iff (groups : List PyVal) (args : List (String × PyVal)) :
    firstMutexViolation groups args = Option.none ↔
      ¬ ∃ names, PyVal.list names ∈ groups ∧
        (names.filter (fun n => is_present (argGetBy args n))).length > 1 := by
  unfold firstMutexViolation
  rw [List.findSome?_eq_none_iff]
  constructor
  · rintro h ⟨names, hmem, hlen⟩
    have hh := h _ hmem
    simp [hlen] at hh
  · intro h g hg
    cases g with
    | list names =>
      by_cases hlen : (names.filter (fun n => is_present (argGetBy args n))).length > 1
      · exact absurd ⟨names, hg, hlen⟩ h
      · simp [hlen]
    | none => rfl
    | bool b => rfl
    | int n => rfl
    | str s => rfl
    | dict ds => rfl

theorem firstOneOfViolation_eq_none_iff (groups : List PyVal) (args : List (String × PyVal)) :
    firstOneOfViolation groups args = Option.none ↔
      ¬ ∃ names, PyVal.list names ∈ groups ∧
        names.all (fun n => !is_present (argGetBy args n)) = true := by
  unfold firstOneOfViolation
  rw [List.findSome?_eq_none_iff]
  constructor
  · rintro h ⟨names, hmem, hall⟩
    have hh := h _ hmem
    have hany : names.any (fun n => is_present (argGetBy args n)) = false := by
      rw [← Bool.not_eq_true]
      intro hx
      rcases List.any_eq_true.mp hx with ⟨n, hn, hpres⟩
      have := List.all_eq_true.mp hall n hn
      simp [hpres] at this
    simp [hany] at hh
  · intro h g hg
    cases g with
    | list names =>
      by_cases hany : names.any (fun n => is_present (argGetBy args n)) = true
      · simp [hany]
      · rw [Bool.not_eq_true] at hany
        refine absurd ⟨names, hg, ?_⟩ h
        rw [List.all_eq_true]
        intro n hn
        have hf := List.any_eq_false.mp hany n hn
        simp [hf]
    | none => rfl
    | bool b => rfl
    | int n => rfl
    | str s => rfl
    | dict ds => rfl

theorem firstRequiredWhenViolation_eq_none_iff (rules : List PyVal)
    (args : List (String × PyVal)) :
    firstRequiredWhenViolation rules args = Option.none ↔
      ¬ ∃ rule, PyVal.dict rule ∈ rules ∧ ruleTriggerHolds rule args = true ∧
        ∃ pname, dget rule "param" = PyVal.str pname ∧
          is_present (dget args pname) = false := by
  unfold firstRequiredWhenViolation
  rw [List.findSome?_eq_none_iff]
  constructor
  · rintro h ⟨rule, hmem, htrig, pname, hpn, habs⟩
    have hh := h _ hmem
    simp [htrig, hpn, habs] at hh
  · intro h r hr
    cases r with
    | dict rule =>
      by_cases htrig : ruleTriggerHolds rule args = true
      · cases hpn : dget rule "param" with
        | str pname =>
          by_cases hpres : is_present (dget args pname) = true
          · simp [htrig, hpn, hpres]
          · rw [Bool.not_eq_true] at hpres
            exact absurd ⟨rule, hr, htrig, pname, hpn, hpres⟩ h
        | none => simp [htrig, hpn]
        | bool b => simp [htrig, hpn]
        | int n => simp [htrig, hpn]
        | list xs => simp [htrig, hpn]
        | dict ds => simp [htrig, hpn]
      · rw [Bool.not_eq_true] at htrig
        simp [htrig]
    | none => rfl
    | bool b => rfl
    | int n => rfl
    | str s => rfl
    | list xs => rfl

/-- C4: dispatch validation fails, always with `INVALID_ARGUMENT`, exactly
when the identifier is unknown, an argument key is not among the declared
parameter names (regardless of the other checks), a required parameter is
absent, or a declared constraint is violated (a mutually-exclusive group
with more than one present member, a requires-one-of group with none, or a
conditional-required rule whose trigger holds while the dependent parameter
is absent), where a list value is present when non-empty and any other value
when non-null. -/
theorem claim_C4 (opIndex : List (String × PyVal)) (operation_id : String)
    (args : List (String × PyVal)) (hwf : WFOpIndex opIndex) :
    ((∃ e, validate_dispatch_args opIndex operation_id args = .error e) ↔
      (opIndexGet opIndex operation_id = Option.none ∨
       ∃ opFields, opIndexGet opIndex operation_id = some (PyVal.dict opFields) ∧
         ∃ params, dget opFields "params" = PyVal.list params ∧
           (HasUnknownKey params args ∨ HasMissingRequired params args ∨
            HasConstraintViolation opFields args))) ∧
    (∀ e, validate_dispatch_args opIndex operation_id args = .error e →
      e.code = PyVal.str "INVALID_ARGUMENT") := by
  cases hop : opIndexGet opIndex operation_id with
  | none =>
    have hval : validate_dispatch_args opIndex operation_id args =
        .error (invalidArg [("operationId", .str operation_id)]) := by
      unfold validate_dispatch_args
      rw [hop]
    refine ⟨⟨fun _ => Or.inl rfl, fun _ => ⟨_, hval⟩⟩, ?_⟩
    intro e he
    rw [hval] at he
    injection he with he2
    rw [← he2]
    rfl
  | some v =>
    obtain ⟨p, hpmem, hpv⟩ : ∃ p ∈ opIndex, p.2 = v := by
      unfold opIndexGet at hop
      cases hfind : opIndex.find? (fun p => p.1 == operation_id) with
      | none => rw [hfind] at hop; exact absurd hop (by simp)
      | some p =>
        rw [hfind] at hop
        exact ⟨p, List.mem_of_find?_eq_some hfind, by simpa using hop⟩
    obtain ⟨fs, hfs, paramsL, hparamsL⟩ := hwf p hpmem
    have hv2 : v = PyVal.dict fs := by rw [← hpv, hfs]
    subst hv2
    have hcode : ∀ e, validate_dispatch_args opIndex operation_id args = .error e →
        e.code = PyVal.str "INVALID_ARGUMENT" := by
      intro e he
      simp only [validate_dispatch_args, hop, hparamsL] at he
      cases hu : firstUnknownKey (allowedNames paramsL) args with
      | some key =>
        rw [hu] at he
        injection he with he2
        rw [← he2]
        rfl
      | none =>
        rw [hu] at he
        cases hm : firstMissingRequired paramsL args with
        | some name =>
          rw [hm] at he
          injection he with he2
          rw [← he2]
          rfl
        | none =>
          rw [hm] at he
          cases hc : dget fs "constraints" with
          | dict cFields =>
            rw [hc] at he
            simp only [validateConstraints] at he
            cases h1 : firstMutexViolation
                (match dget cFields "mutuallyExclusive" with
                 | PyVal.list l => l
                 | _ => []) args with
            | some g =>
              rw [h1] at he
              injection he with he2
              rw [← he2]
              rfl
            | none =>
              rw [h1] at he
              cases h2 : firstOneOfViolation
                  (match dget cFields "requiresOneOf" with
                   | PyVal.list l => l
                   | _ => []) args with
              | some g =>
                rw [h2] at he
                injection he with he2
                rw [← he2]
                rfl
              | none =>
                rw [h2] at he
                cases h3 : firstRequiredWhenViolation
                    (match dget cFields "requiredWhen" with
                     | PyVal.list l => l
                     | _ => []) args with
                | some rule =>
                  rw [h3] at he
                  injection he with he2
                  rw [← he2]
                  rfl
                | none =>
                  rw [h3] at he
                  exact Except.noConfusion he
          | none => rw [hc] at he; exact Except.noConfusion he
          | bool b => rw [hc] at he; exact Except.noConfusion he
          | int n => rw [hc] at he; exact Except.noConfusion he
          | str s => rw [hc] at he; exact Except.noConfusion he
          | list xs => rw [hc] at he; exact Except.noConfusion he
    refine ⟨?_, hcode⟩
    have hrhs : (some (PyVal.dict fs) = Option.none ∨
        ∃ opFields, some (PyVal.dict fs) = some (PyVal.dict opFields) ∧
          ∃ params, dget opFields "params" = PyVal.list params ∧
            (HasUnknownKey params args ∨ HasMissingRequired params args ∨
             HasConstraintViolation opFields args)) ↔
        (HasUnknownKey paramsL args ∨ HasMissingRequired paramsL args ∨
         HasConstraintViolation fs args) := by
      constructor
      · rintro (hnone | ⟨opFields, heq, params2, hp2, hdis⟩)
        · exact Option.noConfusion hnone
        · injection heq with heq1
          injection heq1 with heq2
          subst heq2
          rw [hparamsL] at hp2
          injection hp2 with hp3
          subst hp3
          exact hdis
      · intro hdis
        exact Or.inr ⟨fs, rfl, paramsL, hparamsL, hdis⟩
    rw [hrhs]
    simp only [validate_dispatch_args, hop, hparamsL]
    cases hu : firstUnknownKey (allowedNames paramsL) args with
    | some key =>
      have hk : HasUnknownKey paramsL args := by
        by_contra hcon
        exact absurd ((firstUnknownKey_eq_none_iff _ _).mpr hcon) (by simp [hu])
      exact ⟨fun _ => Or.inl hk, fun _ => ⟨_, rfl⟩⟩
    | none =>
      have hnu : ¬ HasUnknownKey paramsL args := by
        intro hk
        exact ((firstUnknownKey_eq_none_iff _ _).mp hu) hk
      cases hm : firstMissingRequired paramsL args with
      | some name =>
        have hk : HasMissingRequired paramsL args := by
          by_contra hcon
          exact absurd ((firstMissingRequired_eq_none_iff _ _).mpr hcon) (by simp [hm])
        exact ⟨fun _ => Or.inr (Or.inl hk), fun _ => ⟨_, rfl⟩⟩
      | none =>
        have hnm : ¬ HasMissingRequired paramsL args :=
          (firstMissingRequired_eq_none_iff _ _).mp hm
        cases hc : dget fs "constraints" with
        | dict cFields =>
          have hcv : HasConstraintViolation fs args ↔
              ((∃ names, PyVal.list names ∈
                  (match dget cFields "mutuallyExclusive" with
                   | PyVal.list l => l
                   | _ => []) ∧
                  (names.filter (fun n => is_present (argGetBy args n))).length > 1) ∨
               (∃ names, PyVal.list names ∈
                  (match dget cFields "requiresOneOf" with
                   | PyVal.list l => l
                   | _ => []) ∧
                  names.all (fun n => !is_present (argGetBy args n)) = true) ∨
               (∃ rule, PyVal.dict rule ∈
                  (match dget cFields "requiredWhen" with
                   | PyVal.list l => l
                   | _ => []) ∧
                  ruleTriggerHolds rule args = true ∧
                  ∃ pname, dget rule "param" = PyVal.str pname ∧
                    is_present (dget args pname) = false)) := by
            unfold HasConstraintViolation
            constructor
            · rintro ⟨cFields2, hc2, hdis⟩
              rw [hc] at hc2
              injection hc2 with hc3
              subst hc3
              exact hdis
            · intro hdis
              exact ⟨cFields, hc, hdis⟩
          simp only [validateConstraints]
          cases h1 : firstMutexViolation
              (match dget cFields "mutuallyExclusive" with
               | PyVal.list l => l
               | _ => []) args with
          | some g =>
            have hk : ∃ names, PyVal.list names ∈
                (match dget cFields "mutuallyExclusive" with
                 | PyVal.list l => l
                 | _ => []) ∧
                (names.filter (fun n => is_present (argGetBy args n))).length > 1 := by
              by_contra hcon
              exact absurd ((firstMutexViolation_eq_none_iff _ _).mpr hcon) (by simp [h1])
            exact ⟨fun _ => Or.inr (Or.inr (hcv.mpr (Or.inl hk))), fun _ => ⟨_, rfl⟩⟩
          | none =>
            have hn1 := (firstMutexViolation_eq_none_iff _ _).mp h1
            cases h2 : firstOneOfViolation
                (match dget cFields "requiresOneOf" with
                 | PyVal.list l => l
                 | _ => []) args with
            | some g =>
              have hk : ∃ names, PyVal.list names ∈
                  (match dget cFields "requiresOneOf" with
                   | PyVal.list l => l
                   | _ => []) ∧
                  names.all (fun n => !is_present (argGetBy args n)) = true := by
                by_contra hcon
                exact absurd ((firstOneOfViolation_eq_none_iff _ _).mpr hcon) (by simp [h2])
              exact ⟨fun _ => Or.inr (Or.inr (hcv.mpr (Or.inr (Or.inl hk)))),
                fun _ => ⟨_, rfl⟩⟩
            | none =>
              have hn2 := (firstOneOfViolation_eq_none_iff _ _).mp h2
              cases h3 : firstRequiredWhenViolation
                  (match dget cFields "requiredWhen" with
                   | PyVal.list l => l
                   | _ => []) args with
              | some rule =>
                have hk : ∃ rule2, PyVal.dict rule2 ∈
                    (match dget cFields "requiredWhen" with
                     | PyVal.list l => l
                     | _ => []) ∧
                    ruleTriggerHolds rule2 args = true ∧
                    ∃ pname, dget rule2 "param" = PyVal.str pname ∧
                      is_present (dget args pname) = false := by
                  by_contra hcon
                  exact absurd ((firstRequiredWhenViolation_eq_none_iff _ _).mpr hcon)
                    (by simp [h3])
                exact ⟨fun _ => Or.inr (Or.inr (hcv.mpr (Or.inr (Or.inr hk)))),
                  fun _ => ⟨_, rfl⟩⟩
              | none =>
                have hn3 := (firstRequiredWhenViolation_eq_none_iff _ _).mp h3
                constructor
                · rintro ⟨e, he⟩
                  exact Except.noConfusion he
                · rintro (hk | hk | hk)
                  · exact absurd hk hnu
                  · exact absurd hk hnm
                  · rcases hcv.mp hk with hx | hx | hx
                    · exact absurd hx hn1
                    · exact absurd hx hn2
                    · exact absurd hx hn3
        | none =>
          refine ⟨fun he => Except.noConfusion he.choose_spec, ?_⟩
          rintro (hk | hk | hk)
          · exact absurd hk hnu
          · exact absurd hk hnm
          · rcases hk with ⟨cFields2, hc2, _⟩
            rw [hc] at hc2
            exact PyVal.noConfusion hc2
        | bool b =>
          refine ⟨fun he => Except.noConfusion he.choose_spec, ?_⟩
          rintro (hk | hk | hk)
          · exact absurd hk hnu
          · exact absurd hk hnm
          · rcases hk with ⟨cFields2, hc2, _⟩
            rw [hc] at hc2
            exact PyVal.noConfusion hc2
        | int n =>
          refine ⟨fun he => Except.noConfusion he.choose_spec, ?_⟩
          rintro (hk | hk | hk)
          · exact absurd hk hnu
          · exact absurd hk hnm
          · rcases hk with ⟨cFields2, hc2, _⟩
            rw [hc] at hc2
            exact PyVal.noConfusion hc2
        | str s =>
          refine ⟨fun he => Except.noConfusion he.choose_spec, ?_⟩
          rintro (hk | hk | hk)
          · exact absurd hk hnu
          · exact absurd hk hnm
          · rcases hk with ⟨cFields2, hc2, _⟩
            rw [hc] at hc2
            exact PyVal.noConfusion hc2
        | list xs =>
          refine ⟨fun he => Except.noConfusion he.choose_spec, ?_⟩
          rintro (hk | hk | hk)
          · exact absurd hk hnu
          · exact absurd hk hnm
          · rcases hk with ⟨cFields2, hc2, _⟩
            rw [hc] at hc2
            exact PyVal.noConfusion hc2

/-- C4 witness: on the concrete one-operation index, a call to `doc.open`
whose argument map contains the unknown key `bogus` is rejected with
`INVALID_ARGUMENT` even though the required `file` parameter is present. -/
theorem claim_C4_witness :
    WFOpIndex opIndexFix ∧
    ∃ e, validate_dispatch_args opIndexFix "doc.open"
        [("bogus", .str "x"), ("file", .str "a.docx")] = .error e ∧
      e.code = PyVal.str "INVALID_ARGUMENT" := by
  have hwf : WFOpIndex opIndexFix := by
    intro p hp
    simp only [opIndexFix, List.mem_singleton] at hp
    subst hp
    exact ⟨_, rfl, _, rfl⟩
  have hmain := claim_C4 opIndexFix "doc.open"
    [("bogus", .str "x"), ("file", .str "a.docx")] hwf
  have hcond : HasUnknownKey
      [PyVal.dict [("name", .str "file"), ("kind", .str "doc"), ("required", .bool true)]]
      [("bogus", .str "x"), ("file", .str "a.docx")] := by
    refine ⟨("bogus", .str "x"), by simp, ?_⟩
    intro hmem
    simp [allowedNames, dget, dgetD] at hmem
  rcases hmain.1.mpr (Or.inr ⟨_, rfl, _, rfl, Or.inl hcond⟩) with ⟨e, he⟩
  exact ⟨hwf, e, he, hmain.2 e he⟩

theorem foundationalLoop_eq (minRead maxTools : Nat) :
    ∀ (l sel : List Tool), foundationalLoop minRead maxTools sel l =
      sel ++ l.take (min minRead maxTools - sel.length) := by
  intro l
  induction l with
  | nil => intro sel; simp [foundationalLoop]
  | cons t rest ih =>
    intro sel
    unfold foundationalLoop
    by_cases h : sel.length ≥ minRead ∨ sel.length ≥ maxTools
    · have hz : min minRead maxTools - sel.length = 0 := by omega
      rw [if_pos h, hz]
      simp
    · rw [if_neg h]
      rw [ih (sel ++ [t])]
      have hm : min minRead maxTools - sel.length =
          (min minRead maxTools - (sel ++ [t]).length) + 1 := by
        simp only [List.length_append, List.length_singleton]
        omega
      rw [hm, List.take_succ_cons]
      simp

theorem budgetLoop_eq (maxTools : Nat) :
    ∀ (rem sel : List Tool) (excl : List ExclEntry), sel.length ≤ maxTools →
      budgetLoop maxTools sel excl rem =
        (sel ++ rem.take (maxTools - sel.length),
         excl ++ (rem.drop (maxTools - sel.length)).map
           (fun t => (⟨t.toolName, "budget-trim"⟩ : ExclEntry))) := by
  intro rem
  induction rem with
  | nil => intro sel excl h; simp [budgetLoop]
  | cons t rest ih =>
    intro sel excl h
    unfold budgetLoop
    by_cases hge : sel.length ≥ maxTools
    · have hz : maxTools - sel.length = 0 := by omega
      rw [if_pos hge, ih sel _ h, hz]
      simp [hz]
    · have hlt : sel.length < maxTools := Nat.lt_of_not_le hge
      rw [if_neg hge]
      have hlen : (sel ++ [t]).length ≤ maxTools := by
        simp only [List.length_append, List.length_singleton]
        omega
      rw [ih (sel ++ [t]) excl hlen]
      have hm : maxTools - sel.length = (maxTools - (sel ++ [t]).length) + 1 := by
        simp only [List.length_append, List.length_singleton]
        omega
      rw [hm, List.take_succ_cons, List.drop_succ_cons]
      simp

theorem chooseSelection_eq (candidates : List Tool) (fIds priority : List String)
    (minRead maxTools : Nat) (excl : List ExclEntry) :
    chooseSelection candidates fIds priority minRead maxTools excl =
      (let sel1 := (candidates.filter (fun t => fIds.contains t.operationId)).take
        (min minRead maxTools);
      let remaining := (priority_sort candidates priority).filter
        (fun t => !(sel1.map (fun x => x.toolName)).contains t.toolName);
      (sel1 ++ remaining.take (maxTools - sel1.length),
       excl ++ (remaining.drop (maxTools - sel1.length)).map
         (fun t => (⟨t.toolName, "budget-trim"⟩ : ExclEntry)))) := by
  simp only [chooseSelection]
  rw [foundationalLoop_eq]
  simp only [List.nil_append, List.length_nil, Nat.sub_zero]
  rw [budgetLoop_eq]
  have hlen := List.length_take (min minRead maxTools)
    (candidates.filter (fun t => fIds.contains t.operationId))
  omega

theorem resolveChoice_maxTools (cat : List (String × List Tool)) (pol : ToolsPolicy)
    (input : ChooserInput) (rc : ResolvedChoice)
    (h : resolveChoice cat pol input = .ok rc) :
    rc.maxToolsC = specEffectiveMaxTools pol rc.profile input.budget ∧ 1 ≤ rc.maxToolsC := by
  unfold resolveChoice at h
  split at h
  · exact Except.noConfusion h
  · split at h
    · exact Except.noConfusion h
    · injection h with h2
      rw [← h2]
      exact ⟨rfl, le_max_left 1 _⟩

theorem chooseSelection_length_le (candidates : List Tool) (fIds priority : List String)
    (minRead maxTools : Nat) (excl : List ExclEntry) :
    (chooseSelection candidates fIds priority minRead maxTools excl).1.length ≤ maxTools := by
  rw [chooseSelection_eq]
  simp only [List.length_append, List.length_take]
  omega

theorem chooseSelection_partition (candidates : List Tool) (fIds priority : List String)
    (minRead maxTools : Nat) (excl : List ExclEntry) :
    ∀ t ∈ candidates,
      t.toolName ∈ (chooseSelection candidates fIds priority minRead maxTools excl).1.map
        (fun x => x.toolName) ∨
      (⟨t.toolName, "budget-trim"⟩ : ExclEntry) ∈
        (chooseSelection candidates fIds priority minRead maxTools excl).2 := by
  intro t ht
  rw [chooseSelection_eq]
  simp only []
  set sel1 := (candidates.filter (fun x => fIds.contains x.operationId)).take
    (min minRead maxTools) with hsel1
  set R := (priority_sort candidates priority).filter
    (fun x => !(sel1.map (fun y => y.toolName)).contains x.toolName) with hR
  by_cases hname : t.toolName ∈ sel1.map (fun x => x.toolName)
  · left
    rw [List.map_append]
    exact List.mem_append.mpr (Or.inl hname)
  · have hrem : t ∈ R := by
      rw [hR, List.mem_filter]
      constructor
      · simp only [priority_sort]
        exact (List.perm_insertionSort _ candidates).mem_iff.mpr ht
      · simp only [Bool.not_eq_true']
        rw [← Bool.not_eq_true]
        intro hcon
        exact hname (by simpa using hcon)
    have hsplit := List.take_append_drop (maxTools - sel1.length) R
    rw [← hsplit] at hrem
    rcases List.mem_append.mp hrem with htake | hdrop
    · left
      rw [List.map_append]
      exact List.mem_append.mpr (Or.inr (List.mem_map_of_mem _ htake))
    · right
      exact List.mem_append.mpr (Or.inr (List.mem_map_of_mem _ hdrop))

/-- C5: for every provider/profile/phase/policy/budget/document-feature
input on which tool selection succeeds, the reported cap is the requested
`maxTools` defaulted from policy and clamped to at least 1, the number of
selected tools never exceeds it, and every pool candidate not selected is
recorded in the excluded list with reason `budget-trim`. -/
theorem claim_C5 (cat : List (String × List Tool)) (pol : ToolsPolicy)
    (passets : String → String → List PyVal) (input : ChooserInput)
    (rc : ResolvedChoice) (res : ChooseResult)
    (hrc : resolveChoice cat pol input = .ok rc)
    (h : choose_tools cat pol passets input = .ok res) :
    res.selectionMeta.maxTools = specEffectiveMaxTools pol rc.profile input.budget ∧
    1 ≤ res.selectionMeta.maxTools ∧
    (res.selected.length : Int) ≤ res.selectionMeta.maxTools ∧
    ∀ t ∈ rc.pool.1, t.toolName ∈ res.selected.map (fun x => x.toolName) ∨
      (⟨t.toolName, "budget-trim"⟩ : ExclEntry) ∈ res.excluded := by
  obtain ⟨hmax, hone⟩ := resolveChoice_maxTools cat pol input rc hrc
  have hform : res =
      { tools := ((chooseSelection rc.pool.1 pol.defaults.foundationalOperationIds
            rc.phasePolicy.priority rc.minReadC.toNat rc.maxToolsC.toNat rc.pool.2).1.map
            (fun t => t.toolName)).filterMap
          (fun n => providerIndexGet (passets rc.provider rc.profile) n)
        selected := (chooseSelection rc.pool.1 pol.defaults.foundationalOperationIds
            rc.phasePolicy.priority rc.minReadC.toNat rc.maxToolsC.toNat rc.pool.2).1.map
          (fun t => ⟨t.operationId, t.toolName, t.category, t.mutates, t.profile⟩)
        excluded := (chooseSelection rc.pool.1 pol.defaults.foundationalOperationIds
            rc.phasePolicy.priority rc.minReadC.toNat rc.maxToolsC.toNat rc.pool.2).2
        selectionMeta :=
          ⟨rc.profile, rc.phase, rc.maxToolsC, rc.minReadC,
            (chooseSelection rc.pool.1 pol.defaults.foundationalOperationIds
              rc.phasePolicy.priority rc.minReadC.toNat rc.maxToolsC.toNat rc.pool.2).1.length,
            pol.defaults.chooserDecisionVersion.getD "v1", rc.provider⟩ } := by
    unfold choose_tools at h
    rw [hrc] at h
    injection h with h2
    rw [← h2]
  have hlen := chooseSelection_length_le rc.pool.1 pol.defaults.foundationalOperationIds
    rc.phasePolicy.priority rc.minReadC.toNat rc.maxToolsC.toNat rc.pool.2
  refine ⟨?_, ?_, ?_, ?_⟩
  · rw [hform]
    exact hmax
  · rw [hform]
    exact hone
  · rw [hform]
    simp only [List.length_map]
    omega
  · intro t ht
    have hp := chooseSelection_partition rc.pool.1 pol.defaults.foundationalOperationIds
      rc.phasePolicy.priority rc.minReadC.toNat rc.maxToolsC.toNat rc.pool.2 t ht
    rcases hp with h1 | h1
    · left
      rw [hform]
      simp only [List.map_map]
      simpa using h1
    · right
      rw [hform]
      exact h1

/-- C5 witness: on a two-tool catalog with a requested cap of one tool, the
cap resolves to 1, the selection stays within it, and the overflowing
candidate `tool_read` is recorded as `budget-trim`. -/
theorem claim_C5_witness :
    resolveChoice [("intent", [toolRead, toolFind])] toolsPolicyFix inputMaxOne =
      .ok ⟨"generic", "intent", "read", [toolRead, toolFind], 1, 0, ⟨[], [], []⟩,
        ([toolRead, toolFind], [])⟩ ∧
    choose_tools [("intent", [toolRead, toolFind])] toolsPolicyFix providerToolsNone
      inputMaxOne =
      .ok ⟨[], [⟨"doc.find", "tool_find", "read", false, "intent"⟩],
        [⟨"tool_read", "budget-trim"⟩], ⟨"intent", "read", 1, 0, 1, "v1", "generic"⟩⟩ ∧
    ((1 : Int) ≤ 1 ∧
      (⟨"tool_read", "budget-trim"⟩ : ExclEntry) ∈
        [(⟨"tool_read", "budget-trim"⟩ : ExclEntry)]) := by
  have h1 : resolveChoice [("intent", [toolRead, toolFind])] toolsPolicyFix inputMaxOne =
      .ok (⟨"generic", "intent", "read", [toolRead, toolFind], 1, 0, ⟨[], [], []⟩,
        ([toolRead, toolFind], [])⟩ : ResolvedChoice) := rfl
  have h2 : choose_tools [("intent", [toolRead, toolFind])] toolsPolicyFix providerToolsNone
      inputMaxOne =
      .ok (⟨[], [⟨"doc.find", "tool_find", "read", false, "intent"⟩],
        [⟨"tool_read", "budget-trim"⟩],
        ⟨"intent", "read", 1, 0, 1, "v1", "generic"⟩⟩ : ChooseResult) := rfl
  have hmain := claim_C5 [("intent", [toolRead, toolFind])] toolsPolicyFix providerToolsNone
    inputMaxOne _ _ h1 h2
  refine ⟨h1, h2, hmain.2.2.1, ?_⟩
  have hpart := hmain.2.2.2 toolRead (List.mem_cons_self _ _)
  rcases hpart with hbad | hgood
  · exact absurd hbad (by decide)
  · exact hgood

theorem strLeChars_total : ∀ x y : List Char,
    strLeChars x y = true ∨ strLeChars y x = true := by
  intro x
  induction x with
  | nil => intro y; exact Or.inl rfl
  | cons a as ih =>
    intro y
    cases y with
    | nil => exact Or.inr rfl
    | cons b bs =>
      by_cases hab : a.toNat < b.toNat
      · left
        simp [strLeChars, hab]
      · by_cases hba : b.toNat < a.toNat
        · right
          simp [strLeChars, hba]
        · rcases ih bs with hs | hs
          · left
            simp [strLeChars, hab, hba, hs]
          · right
            simp [strLeChars, hab, hba, hs]

theorem strLeChars_trans : ∀ x y z : List Char,
    strLeChars x y = true → strLeChars y z = true → strLeChars x z = true := by
  intro x
  induction x with
  | nil => intro y z _ _; rfl
  | cons a as ih =>
    intro y z hxy hyz
    cases y with
    | nil => exact absurd hxy (by simp [strLeChars])
    | cons b bs =>
      cases z with
      | nil => exact absurd hyz (by simp [strLeChars])
      | cons c cs =>
        simp only [strLeChars] at hxy hyz ⊢
        by_cases hab : a.toNat < b.toNat
        · by_cases hbc : b.toNat < c.toNat
          · simp [show a.toNat < c.toNat by omega]
          · by_cases hcb : c.toNat < b.toNat
            · simp [hbc, hcb] at hyz
            · have hac : a.toNat < c.toNat := by omega
              simp [hac]
        · by_cases hba : b.toNat < a.toNat
          · simp [hab, hba] at hxy
          · by_cases hbc : b.toNat < c.toNat
            · have hac : a.toNat < c.toNat := by omega
              simp [hac]
            · by_cases hcb : c.toNat < b.toNat
              · simp [hbc, hcb] at hyz
              · have hac : ¬ a.toNat < c.toNat := by omega
                have hca : ¬ c.toNat < a.toNat := by omega
                simp only [hab, hba, if_false, if_neg] at hxy
                simp only [hbc, hcb, if_false, if_neg] at hyz
                simp [hac, hca]
                exact ih bs cs (by simpa [hab, hba] using hxy) (by simpa [hbc, hcb] using hyz)

theorem toolLe_total (priority : List String) (a b : Tool) :
    toolLe priority a b = true ∨ toolLe priority b a = true := by
  unfold toolLe
  simp only [Bool.or_eq_true, Bool.and_eq_true, decide_eq_true_eq, beq_iff_eq]
  rcases Nat.lt_trichotomy (priorityIdx priority a.category) (priorityIdx priority b.category)
    with h | h | h
  · exact Or.inl (Or.inl h)
  · rcases strLeChars_total a.toolName.data b.toolName.data with hs | hs
    · exact Or.inl (Or.inr ⟨h, hs⟩)
    · exact Or.inr (Or.inr ⟨h.symm, hs⟩)
  · exact Or.inr (Or.inl h)

theorem toolLe_trans (priority : List String) (a b c : Tool)
    (hab : toolLe priority a b = true) (hbc : toolLe priority b c = true) :
    toolLe priority a c = true := by
  unfold toolLe at hab hbc ⊢
  simp only [Bool.or_eq_true, Bool.and_eq_true, decide_eq_true_eq, beq_iff_eq] at hab hbc ⊢
  rcases hab with h1 | ⟨h1, hs1⟩
  · rcases hbc with h2 | ⟨h2, _⟩
    · exact Or.inl (Nat.lt_trans h1 h2)
    · exact Or.inl (h2 ▸ h1)
  · rcases hbc with h2 | ⟨h2, hs2⟩
    · exact Or.inl (h1 ▸ h2)
    · exact Or.inr ⟨h1.trans h2, strLeChars_trans _ _ _ hs1 hs2⟩

/-- C6: selection is foundational-first — the selected list is the
foundational candidates (operation id in the foundational set) up to the
lesser of the minimum-read target and the cap, followed by the remaining
candidates in phase-priority order (category rank, tool name ascending —
`priority_sort` is sorted and a permutation of its input) up to the cap; in
particular, when at least `minReadTools` foundational candidates exist and
`minReadTools ≤ maxTools`, the first `minReadTools` selected tools are
exactly the leading foundational candidates; and `choose_tools` builds its
`selected` output from exactly this stage. -/
theorem claim_C6 :
    (∀ (candidates : List Tool) (fIds priority : List String) (minRead maxTools : Nat)
      (excl : List ExclEntry),
      (chooseSelection candidates fIds priority minRead maxTools excl).1 =
        (candidates.filter (fun t => fIds.contains t.operationId)).take
          (min minRead maxTools) ++
        ((priority_sort candidates priority).filter (fun t =>
          !(((candidates.filter (fun x => fIds.contains x.operationId)).take
            (min minRead maxTools)).map (fun x => x.toolName)).contains t.toolName)).take
          (maxTools - ((candidates.filter (fun x => fIds.contains x.operationId)).take
            (min minRead maxTools)).length)) ∧
    (∀ (tools : List Tool) (priority : List String),
      List.Pairwise (fun a b => toolLe priority a b = true) (priority_sort tools priority) ∧
      (priority_sort tools priority).Perm tools) ∧
    (∀ (candidates : List Tool) (fIds priority : List String) (minRead maxTools : Nat)
      (excl : List ExclEntry),
      minRead ≤ maxTools →
      minRead ≤ (candidates.filter (fun t => fIds.contains t.operationId)).length →
      (chooseSelection candidates fIds priority minRead maxTools excl).1.take minRead =
        (candidates.filter (fun t => fIds.contains t.operationId)).take minRead) ∧
    (∀ (cat : List (String × List Tool)) (pol : ToolsPolicy)
      (passets : String → String → List PyVal) (input : ChooserInput)
      (rc : ResolvedChoice) (res : ChooseResult),
      resolveChoice cat pol input = .ok rc →
      choose_tools cat pol passets input = .ok res →
      res.selected = (chooseSelection rc.pool.1 pol.defaults.foundationalOperationIds
        rc.phasePolicy.priority rc.minReadC.toNat rc.maxToolsC.toNat rc.pool.2).1.map
        (fun t => ⟨t.operationId, t.toolName, t.category, t.mutates, t.profile⟩)) := by
  refine ⟨?_, ?_, ?_, ?_⟩
  · intro candidates fIds priority minRead maxTools excl
    rw [chooseSelection_eq]
  · intro tools priority
    constructor
    · haveI : IsTotal Tool (fun a b => toolLe priority a b = true) := ⟨toolLe_total priority⟩
      haveI : IsTrans Tool (fun a b => toolLe priority a b = true) :=
        ⟨toolLe_trans priority⟩
      exact List.sorted_insertionSort _ tools
    · exact List.perm_insertionSort _ tools
  · intro candidates fIds priority minRead maxTools excl hmm hlen
    rw [chooseSelection_eq]
    simp only []
    rw [Nat.min_eq_left hmm]
    rw [List.take_append_of_le_length (by rw [List.length_take]; omega)]
    rw [List.take_take]
    simp
  · intro cat pol passets input rc res hrc h
    unfold choose_tools at h
    rw [hrc] at h
    injection h with h2
    rw [← h2]

/-- C6 witness: with one foundational candidate (`tool_info`), a minimum-read
target of 1 and a cap of 2, the first selected tool is the foundational one. -/
theorem claim_C6_witness :
    1 ≤ 2 ∧
    1 ≤ ([toolRead, toolInfo].filter (fun t =>
      (["doc.info"] : List String).contains t.operationId)).length ∧
    (chooseSelection [toolRead, toolInfo] ["doc.info"] [] 1 2 []).1.take 1 = [toolInfo] := by
  refine ⟨by omega, by decide, ?_⟩
  have h := claim_C6.2.2.1 [toolRead, toolInfo] ["doc.info"] [] 1 2 []
    (by omega) (by decide)
  exact h.trans rfl

theorem dictInsert_mem {acc : List (String × Tool)} {k : String} {t : Tool}
    {q : String × Tool} (hq : q ∈ dictInsert acc k t) :
    q = (k, t) ∨ (q ∈ acc ∧ q.1 ≠ k) := by
  unfold dictInsert at hq
  by_cases h : acc.any (fun p => p.1 == k)
  · rw [if_pos h] at hq
    rcases List.mem_map.mp hq with ⟨p, hp, hpq⟩
    by_cases hpk : (p.1 == k) = true
    · left
      rw [← hpq]
      simp [hpk]
    · right
      have hqp : q = p := by rw [← hpq]; simp [hpk]
      subst hqp
      exact ⟨hp, by simpa using hpk⟩
  · rw [if_neg h] at hq
    rcases List.mem_append.mp hq with hin | hin
    · right
      refine ⟨hin, ?_⟩
      intro hk
      apply h
      exact List.any_eq_true.mpr ⟨q, hin, by simp [hk]⟩
    · left
      simpa using hin

theorem dictInsert_keys (acc : List (String × Tool)) (k : String) (t : Tool) (n : String) :
    n ∈ (dictInsert acc k t).map Prod.fst ↔ n ∈ acc.map Prod.fst ∨ n = k := by
  unfold dictInsert
  by_cases h : acc.any (fun p => p.1 == k)
  · rw [if_pos h]
    have hmm : (acc.map (fun p => if p.1 == k then (k, t) else p)).map Prod.fst =
        acc.map Prod.fst := by
      rw [List.map_map]
      apply List.map_congr_left
      intro p hp
      by_cases hpk : (p.1 == k) = true
      · simp only [Function.comp]
        rw [if_pos hpk]
        exact (beq_iff_eq.mp hpk).symm
      · simp only [Function.comp]
        rw [if_neg hpk]
    rw [hmm]
    constructor
    · exact Or.inl
    · rintro (hn | hn)
      · exact hn
      · subst hn
        rcases List.any_eq_true.mp h with ⟨p, hp, hpk⟩
        exact List.mem_map.mpr ⟨p, hp, beq_iff_eq.mp hpk⟩
  · rw [if_neg h]
    rw [List.map_append]
    simp

theorem foldlInsert_coherent : ∀ (ts : List Tool) (acc : List (String × Tool)),
    (∀ p ∈ acc, p.2.toolName = p.1) →
    ∀ q ∈ ts.foldl (fun a t => dictInsert a t.toolName t) acc, q.2.toolName = q.1 := by
  intro ts
  induction ts with
  | nil => intro acc hacc q hq; exact hacc q hq
  | cons t rest ih =>
    intro acc hacc q hq
    simp only [List.foldl_cons] at hq
    refine ih _ ?_ q hq
    intro p hp
    rcases dictInsert_mem hp with h1 | ⟨h1, _⟩
    · rw [h1]
    · exact hacc p h1

theorem foldlInsert_last : ∀ (ts : List Tool) (acc : List (String × Tool)),
    ∀ q ∈ ts.foldl (fun a t => dictInsert a t.toolName t) acc,
      (ts.filter (fun x => x.toolName == q.1)).getLast? = some q.2 ∨
      (q ∈ acc ∧ ts.filter (fun x => x.toolName == q.1) = []) := by
  intro ts
  induction ts with
  | nil => intro acc q hq; right; exact ⟨hq, rfl⟩
  | cons t rest ih =>
    intro acc q hq
    simp only [List.foldl_cons] at hq
    rcases ih _ q hq with hlast | ⟨hin, hnil⟩
    · left
      rw [List.filter_cons]
      by_cases hname : (t.toolName == q.1) = true
      · rw [if_pos hname]
        have hne : rest.filter (fun x => x.toolName == q.1) ≠ [] := by
          intro hnil2
          rw [hnil2] at hlast
          exact Option.noConfusion hlast
        cases hf : rest.filter (fun x => x.toolName == q.1) with
        | nil => exact absurd hf hne
        | cons a l =>
          rw [hf] at hlast
          rw [List.getLast?_cons_cons]
          exact hlast
      · rw [if_neg hname]
        exact hlast
    · rcases dictInsert_mem hin with h1 | ⟨h1, hne⟩
      · left
        subst h1
        rw [List.filter_cons]
        simp only [beq_self_eq_true, if_pos]
        rw [hnil]
        rfl
      · right
        refine ⟨h1, ?_⟩
        rw [List.filter_cons]
        have hcond : ¬ (t.toolName == q.1) = true := by
          intro hcon
          exact hne (beq_iff_eq.mp hcon).symm
        rw [if_neg hcond]
        exact hnil

theorem foldlInsert_keys : ∀ (ts : List Tool) (acc : List (String × Tool)) (n : String),
    n ∈ (ts.foldl (fun a t => dictInsert a t.toolName t) acc).map Prod.fst ↔
      n ∈ acc.map Prod.fst ∨ n ∈ ts.map (fun t => t.toolName) := by
  intro ts
  induction ts with
  | nil => intro acc n; simp
  | cons t rest ih =>
    intro acc n
    simp only [List.foldl_cons]
    rw [ih]
    rw [dictInsert_keys]
    simp only [List.map_cons, List.mem_cons]
    constructor
    · rintro ((h | h) | h)
      · exact Or.inl h
      · exact Or.inr (Or.inl h)
      · exact Or.inr (Or.inr h)
    · rintro (h | h | h)
      · exact Or.inl (Or.inl h)
      · exact Or.inl (Or.inr h)
      · exact Or.inr h

theorem dedupeByName_last (ts : List Tool) :
    ∀ t ∈ dedupeByName ts,
      (ts.filter (fun x => x.toolName == t.toolName)).getLast? = some t := by
  intro t ht
  unfold dedupeByName at ht
  rcases List.mem_map.mp ht with ⟨q, hq, hqt⟩
  have hco := foldlInsert_coherent ts []
    (fun p hp => absurd hp (List.not_mem_nil p)) q hq
  rcases foldlInsert_last ts [] q hq with h | ⟨habs, _⟩
  · rw [← hqt, hco]
    exact h
  · exact absurd habs (List.not_mem_nil q)

theorem dedupeByName_names (ts : List Tool) (n : String) :
    n ∈ (dedupeByName ts).map (fun t => t.toolName) ↔
      n ∈ ts.map (fun t => t.toolName) := by
  unfold dedupeByName
  rw [List.map_map]
  constructor
  · intro hn
    rcases List.mem_map.mp hn with ⟨q, hq, hqn⟩
    have hco := foldlInsert_coherent ts []
      (fun p hp => absurd hp (List.not_mem_nil p)) q hq
    have hkey : n ∈ (ts.foldl (fun a t => dictInsert a t.toolName t) []).map Prod.fst := by
      refine List.mem_map.mpr ⟨q, hq, ?_⟩
      rw [← hco]
      exact hqn
    have := (foldlInsert_keys ts [] n).mp hkey
    simpa using this
  · intro hn
    have hkey := (foldlInsert_keys ts [] n).mpr (Or.inr hn)
    rcases List.mem_map.mp hkey with ⟨q, hq, hqn⟩
    have hco := foldlInsert_coherent ts []
      (fun p hp => absurd hp (List.not_mem_nil p)) q hq
    refine List.mem_map.mpr ⟨q, hq, ?_⟩
    rw [Function.comp]
    rw [hco]
    exact hqn

theorem forceExcludeScan_eq (forceExcluded : List String) :
    ∀ l : List Tool, forceExcludeScan forceExcluded l =
      (l.filter (fun t => !forceExcluded.contains t.toolName),
       (l.filter (fun t => forceExcluded.contains t.toolName)).map
         (fun t => (⟨t.toolName, "force-excluded"⟩ : ExclEntry))) := by
  intro l
  induction l with
  | nil => rfl
  | cons t rest ih =>
    unfold forceExcludeScan
    rw [ih]
    by_cases h : t.toolName ∈ forceExcluded
    · simp [h, List.filter_cons]
    · simp [h, List.filter_cons]

theorem forceIncludeScan_eq (pool : List Tool) :
    ∀ names : List String, forceIncludeScan pool names =
      (names.filterMap (fun n => indexByName pool n),
       (names.filter (fun n => (indexByName pool n).isNone)).map
         (fun n => (⟨n, "not-in-profile"⟩ : ExclEntry))) := by
  intro names
  induction names with
  | nil => rfl
  | cons n rest ih =>
    unfold forceIncludeScan
    rw [ih]
    cases hx : indexByName pool n with
    | some t => simp [List.filterMap_cons, List.filter_cons, hx]
    | none => simp [List.filterMap_cons, List.filter_cons, hx]

theorem indexByName_eq_none_iff (pool : List Tool) (n : String) :
    indexByName pool n = Option.none ↔ n ∉ pool.map (fun t => t.toolName) := by
  unfold indexByName
  rw [List.getLast?_eq_none_iff]
  constructor
  · intro h hmem
    rcases List.mem_map.mp hmem with ⟨t, ht, htn⟩
    have : t ∈ pool.filter (fun t => t.toolName == n) :=
      List.mem_filter.mpr ⟨ht, by simp [htn]⟩
    rw [h] at this
    exact List.not_mem_nil t this
  · intro h
    rw [List.filter_eq_nil_iff]
    intro t ht hcon
    exact h (List.mem_map.mpr ⟨t, ht, beq_iff_eq.mp hcon⟩)

/-- C7: force-exclude is applied before force-include — the force-exclude
pass removes every candidate named in the force-exclude set (recording
`force-excluded`), the force-include pass then appends each forced name's
lookup in the full profile pool (recording `not-in-profile` exactly for
names absent from the pool), the combined list is de-duplicated by tool name
keeping, for each name, the last entry carrying it; consequently a tool
named in both lists is reintroduced and appears in the final selection, as
the concrete run shows. -/
theorem claim_C7 :
    (∀ (forceExcluded : List String) (l : List Tool),
      forceExcludeScan forceExcluded l =
        (l.filter (fun t => !forceExcluded.contains t.toolName),
         (l.filter (fun t => forceExcluded.contains t.toolName)).map
           (fun t => (⟨t.toolName, "force-excluded"⟩ : ExclEntry)))) ∧
    (∀ (pool : List Tool) (names : List String),
      forceIncludeScan pool names =
        (names.filterMap (fun n => indexByName pool n),
         (names.filter (fun n => (indexByName pool n).isNone)).map
           (fun n => (⟨n, "not-in-profile"⟩ : ExclEntry))) ∧
      ∀ n, indexByName pool n = Option.none ↔ n ∉ pool.map (fun t => t.toolName)) ∧
    (∀ ts : List Tool,
      (∀ n, n ∈ (dedupeByName ts).map (fun t => t.toolName) ↔
        n ∈ ts.map (fun t => t.toolName)) ∧
      ∀ t ∈ dedupeByName ts,
        (ts.filter (fun x => x.toolName == t.toolName)).getLast? = some t) ∧
    ("tool_read" ∈ ((inputForceBoth.policy.getD emptyChooserPolicy).forceExclude.getD []) ∧
     "tool_read" ∈ ((inputForceBoth.policy.getD emptyChooserPolicy).forceInclude.getD []) ∧
     choose_tools [("intent", [toolRead])] toolsPolicyFix providerToolsNone inputForceBoth =
       .ok ⟨[], [⟨"doc.read", "tool_read", "read", false, "intent"⟩],
         [⟨"tool_read", "force-excluded"⟩],
         ⟨"intent", "read", 12, 2, 1, "v1", "generic"⟩⟩ ∧
     "tool_read" ∈ ([(⟨"doc.read", "tool_read", "read", false, "intent"⟩ : SelectedEntry)]).map
       (fun t => t.toolName)) := by
  refine ⟨forceExcludeScan_eq, ?_, ?_, ?_, ?_, rfl, ?_⟩
  · intro pool names
    exact ⟨forceIncludeScan_eq pool names, indexByName_eq_none_iff pool⟩
  · intro ts
    exact ⟨dedupeByName_names ts, dedupeByName_last ts⟩
  · decide
  · decide
  · decide

/-- C7 witness: of two tools sharing the name `tool_x`, de-duplication keeps
the later one, which is indeed the last entry carrying that name. -/
theorem claim_C7_witness :
    toolXb ∈ dedupeByName [toolXa, toolXb] ∧
    ([toolXa, toolXb].filter (fun x => x.toolName == toolXb.toolName)).getLast? =
      some toolXb := by
  have hmem : toolXb ∈ dedupeByName [toolXa, toolXb] := by
    rw [show dedupeByName [toolXa, toolXb] = [toolXb] from rfl]
    exact List.mem_cons_self _ _
  exact ⟨hmem, (claim_C7.2.2.1 [toolXa, toolXb]).2 toolXb hmem⟩

/-- Python `==` against a string literal holds exactly at that string value. -/
theorem pyEq_str_iff (v : PyVal) (s : String) : pyEq v (.str s) = true ↔ v = .str s := by
  cases v <;> simp [pyEq]

/-- One probe of the collaboration-field scan yields nothing exactly when the
field is unset. -/
theorem collabProbe_none_iff (params : List (String × PyVal)) (f : String) :
    (match dget params f with
     | PyVal.none => Option.none
     | _ => some f) = (Option.none : Option String) ↔ dget params f = PyVal.none := by
  cases hd : dget params f <;> simp

/-- The collaboration-field scan is empty exactly when every collaboration
field is unset. -/
theorem collabFieldScan_eq_none_iff (params : List (String × PyVal)) :
    collabFieldScan params = Option.none ↔
      ∀ f ∈ collabFields, dget params f = PyVal.none := by
  rw [collabFieldScan, List.findSome?_eq_none_iff]
  constructor
  · intro h f hf
    exact (collabProbe_none_iff params f).mp (h f hf)
  · intro h f hf
    exact (collabProbe_none_iff params f).mpr (h f hf)

/-- The persisted-metadata check agrees with the claim-side collaboration
predicate. -/
theorem is_collab_session_iff (sys : Sys) (env : String → Option String) (sid : String) :
    is_collab_session sys env sid = true ↔ SpecIsCollab sys env sid := by
  simp only [is_collab_session, SpecIsCollab, read_json, read_text]
  cases hr : sys.readTextFs
      (pjoin (pjoin (pjoin (get_state_root sys env) "contexts") sid) "metadata.json") with
  | none => simp
  | some raw =>
    cases hj : sys.jloads raw with
    | none => simp [hj]
    | some v =>
      cases v with
      | dict fs =>
        cases fs with
        | nil => simp [hj, dget, dgetD]
        | cons p ps =>
          simp [hj]
          exact pyEq_str_iff _ _
      | none => simp [hj]
      | bool b => simp [hj]
      | int n => simp [hj]
      | str s => simp [hj]
      | list xs => simp [hj]

/-- The active-session marker, when it resolves, never yields the empty
string. -/
theorem resolve_active_ne_empty (sys : Sys) (env : String → Option String)
    (sid : String) (h : resolve_active_session_id sys env = some sid) : sid ≠ "" := by
  simp only [resolve_active_session_id, read_text] at h
  split at h
  · exact Option.noConfusion h
  · split at h
    · exact Option.noConfusion h
    · split at h
      · exact Option.noConfusion h
      · rename_i hne
        injection h with h
        subst h
        exact hne

/-- The session target, when it resolves, never yields the empty string. -/
theorem target_some_ne_empty (sys : Sys) (contractOps : List (String × PyVal))
    (operation_id : String) (params : List (String × PyVal))
    (env : String → Option String) (sid : String)
    (h : target_session_id sys contractOps operation_id params env = some sid) :
    sid ≠ "" := by
  simp only [target_session_id] at h
  split at h
  · split at h
    · split at h
      · rename_i hne
        injection h with h
        subst h
        exact hne
      · exact Option.noConfusion h
    · exact Option.noConfusion h
  · split at h
    · exact Option.noConfusion h
    · split at h
      · split at h
        · split at h
          · rename_i hne
            injection h with h
            subst h
            exact hne
          · exact resolve_active_ne_empty sys env sid h
        · exact resolve_active_ne_empty sys env sid h
      · exact Option.noConfusion h

/-- C8: the collaboration guard rejects — always with code `NOT_SUPPORTED` —
exactly when either (a) the operation is the document-opening one and some
collaboration-related field is set, regardless of session state, or (b) the
operation is any other one whose resolved target session has persisted
metadata parsing to a non-empty object whose `sessionType` equals `collab`;
in particular an unresolvable session or absent/unreadable metadata never
makes the guard fail. -/
theorem claim_C8 (sys : Sys) (contractOps : List (String × PyVal))
    (operation_id : String) (params : List (String × PyVal))
    (env : String → Option String) :
    ((∃ e, reject_python_collaboration sys contractOps operation_id params env =
        .error e) ↔
      ((operation_id = "doc.open" ∧
          ∃ f ∈ collabFields, dget params f ≠ PyVal.none) ∨
       (operation_id ≠ "doc.open" ∧
          ∃ sid, target_session_id sys contractOps operation_id params env = some sid ∧
            SpecIsCollab sys env sid))) ∧
    (∀ e, reject_python_collaboration sys contractOps operation_id params env =
        .error e → e.code = PyVal.str "NOT_SUPPORTED") := by
  constructor
  · by_cases hop : operation_id = "doc.open"
    · rw [reject_python_collaboration, if_pos hop]
      cases hf : collabFieldScan params with
      | none =>
        constructor
        · intro ⟨e, he⟩
          exact Except.noConfusion he
        · intro hr
          rcases hr with ⟨_, f, hfmem, hfne⟩ | ⟨hne, _⟩
          · exact (hfne ((collabFieldScan_eq_none_iff params).mp hf f hfmem)).elim
          · exact (hne hop).elim
      | some field =>
        constructor
        · intro _
          refine Or.inl ⟨hop, ?_⟩
          have hnall : ¬ (∀ f ∈ collabFields, dget params f = PyVal.none) := by
            intro hall
            rw [(collabFieldScan_eq_none_iff params).mpr hall] at hf
            exact Option.noConfusion hf
          push_neg at hnall
          exact hnall
        · intro _
          exact ⟨_, rfl⟩
    · rw [reject_python_collaboration, if_neg hop]
      cases ht : target_session_id sys contractOps operation_id params env with
      | none =>
        constructor
        · intro ⟨e, he⟩
          exact Except.noConfusion he
        · intro hr
          rcases hr with ⟨hiseq, _⟩ | ⟨_, sid, hts, _⟩
          · exact (hop hiseq).elim
          · exact Option.noConfusion hts
      | some sid =>
        have hne := target_some_ne_empty sys contractOps operation_id params env sid ht
        show (∃ e, (if sid = "" then Except.ok () else
            if is_collab_session sys env sid then
              Except.error (⟨.str "NOT_SUPPORTED",
                .dict [("operation", .str operation_id), ("sessionId", .str sid)],
                .none⟩ : SDError)
            else Except.ok ()) = Except.error e) ↔ _
        rw [if_neg hne]
        by_cases hcol : is_collab_session sys env sid = true
        · rw [if_pos hcol]
          constructor
          · intro _
            exact Or.inr ⟨hop, sid, rfl, (is_collab_session_iff sys env sid).mp hcol⟩
          · intro _
            exact ⟨_, rfl⟩
        · rw [if_neg hcol]
          constructor
          · intro ⟨e, he⟩
            exact Except.noConfusion he
          · intro hr
            rcases hr with ⟨hiseq, _⟩ | ⟨_, sid2, hts, hcollab⟩
            · exact (hop hiseq).elim
            · injection hts with hts
              subst hts
              exact (hcol ((is_collab_session_iff sys env sid).mpr hcollab)).elim
  · intro e he
    rw [reject_python_collaboration] at he
    split at he
    · split at he
      · injection he with h
        rw [← h]
      · exact Except.noConfusion he
    · split at he
      · exact Except.noConfusion he
      · split at he
        · exact Except.noConfusion he
        · split at he
          · injection he with h
            rw [← h]
          · exact Except.noConfusion he

/-- The marker read agrees with its claim-side form. -/
theorem resolve_active_eq_spec (sys : Sys) (env : String → Option String) :
    resolve_active_session_id sys env = specActiveSession sys env := by
  simp only [resolve_active_session_id, specActiveSession, read_text]
  cases hr : sys.readTextFs
      (pjoin (pjoin (pjoin (get_state_root sys env) "projects")
        ((sys.sha256hex sys.cwdAbs).take 16)) "active-session") with
  | none => rfl
  | some raw =>
    show (if raw = "" then Option.none
          else if pyStrip raw = "" then Option.none else some (pyStrip raw)) =
      (if pyStrip raw = "" then Option.none else some (pyStrip raw))
    by_cases hraw : raw = ""
    · subst hraw
      rw [if_pos rfl, show pyStrip "" = "" from rfl, if_pos rfl]
    · rw [if_neg hraw]

/-- C9: the session-closing operation resolves purely from its own explicit
session-identifier argument, never from the active-session marker; any other
session-bound operation resolves to nothing when it names a document target,
to its explicit session identifier when one is supplied, and otherwise to the
stripped content of the per-project marker file (keyed by the truncated hash
of the absolute working directory under the state root), an absent or blank
marker yielding no implicit target. -/
theorem claim_C9 :
    (∀ (sys : Sys) (contractOps : List (String × PyVal))
        (params : List (String × PyVal)) (env : String → Option String),
      target_session_id sys contractOps "doc.session.close" params env =
        specExplicitSessionId params) ∧
    (∀ (sys : Sys) (contractOps : List (String × PyVal)) (operation_id : String)
        (params : List (String × PyVal)) (env : String → Option String),
      operation_id ≠ "doc.session.close" →
      (derive_session_bound_ids contractOps).contains operation_id = true →
      target_session_id sys contractOps operation_id params env =
        (match dget params "doc" with
         | PyVal.none =>
           (match specExplicitSessionId params with
            | some sid => some sid
            | Option.none => specActiveSession sys env)
         | _ => Option.none)) ∧
    (∀ (sys : Sys) (env : String → Option String),
      resolve_active_session_id sys env = specActiveSession sys env) := by
  refine ⟨fun sys contractOps params env => rfl, ?_, resolve_active_eq_spec⟩
  intro sys contractOps operation_id params env hne hmem
  rw [target_session_id, if_neg hne, hmem]
  show (match dget params "doc" with
    | PyVal.none =>
      (match dget params "sessionId" with
       | PyVal.str v => if v ≠ "" then some v else resolve_active_session_id sys env
       | _ => resolve_active_session_id sys env)
    | _ => Option.none) = _
  cases dget params "doc" with
  | none =>
    show (match dget params "sessionId" with
      | PyVal.str v => if v ≠ "" then some v else resolve_active_session_id sys env
      | _ => resolve_active_session_id sys env) =
      (match specExplicitSessionId params with
       | some sid => some sid
       | Option.none => specActiveSession sys env)
    rw [specExplicitSessionId]
    cases dget params "sessionId" with
    | str v =>
      show (if v ≠ "" then some v else resolve_active_session_id sys env) =
        (match (if v ≠ "" then some v else Option.none) with
         | some sid => some sid
         | Option.none => specActiveSession sys env)
      by_cases hv : v = ""
      · subst hv
        rw [if_neg (by simp), if_neg (by simp)]
        exact resolve_active_eq_spec sys env
      · rw [if_pos hv, if_pos hv]
    | none => exact resolve_active_eq_spec sys env
    | bool b => exact resolve_active_eq_spec sys env
    | int n => exact resolve_active_eq_spec sys env
    | list xs => exact resolve_active_eq_spec sys env
    | dict fs => exact resolve_active_eq_spec sys env
  | bool b => rfl
  | int n => rfl
  | str s => rfl
  | list xs => rfl
  | dict fs => rfl

/-- C9 witness: `doc.comment.add` is session-bound under the fixture contract
and, called without a `doc` target or an explicit identifier, resolves to the
stripped marker content `s9`. -/
theorem claim_C9_witness :
    ("doc.comment.add" ≠ "doc.session.close") ∧
    (derive_session_bound_ids contractOpsFix).contains "doc.comment.add" = true ∧
    target_session_id sysCollab contractOpsFix "doc.comment.add" [] envState =
      some "s9" := by
  refine ⟨by decide, by decide, ?_⟩
  have h := claim_C9.2.1 sysCollab contractOpsFix "doc.comment.add" [] envState
    (by decide) (by decide)
  rw [h]
  rfl

/-- C10: the version gate runs on the decoded envelope before the `ok` field
is examined: when the envelope reports a parsable `meta.version` strictly
below the declared minimum, the invocation fails with
`CLI_VERSION_UNSUPPORTED` carrying both version strings — even when the
envelope has `ok` false — so the version error masks the CLI-reported error
code, details, and exit code. -/
theorem claim_C10 (jloads : String → Option PyVal) (mvs stdout stderr : String)
    (returncode envelope : PyVal) (metaFields : List (String × PyVal)) (vs : String)
    (pc pm : Int × Int × Int)
    (hparse : parse_envelope jloads stdout stderr = .ok envelope)
    (hmeta : pget envelope "meta" = PyVal.dict metaFields)
    (hver : dget metaFields "version" = PyVal.str vs)
    (hsent : vs ≠ "0.0.0")
    (hpc : normalized_version vs = some pc)
    (hpm : normalized_version mvs = some pm)
    (hlt : versionLt pc pm = true) :
    invokeTail jloads (.str mvs) stdout stderr returncode =
      .error ⟨.str "CLI_VERSION_UNSUPPORTED",
        .dict [("cliVersion", .str vs), ("minVersion", .str mvs)], .none⟩ := by
  have hgate : ensure_cli_version_compatible (.str mvs) envelope =
      .error ⟨.str "CLI_VERSION_UNSUPPORTED",
        .dict [("cliVersion", .str vs), ("minVersion", .str mvs)], .none⟩ := by
    show gateMeta normalized_version mvs (pget envelope "meta") = _
    rw [hmeta]
    show gateVersion normalized_version mvs (dget metaFields "version") = _
    rw [hver]
    show (if vs = "0.0.0" then Except.ok () else
      match normalized_version vs, normalized_version mvs with
      | some parsedCli, some parsedMin =>
        if versionLt parsedCli parsedMin then
          Except.error (⟨.str "CLI_VERSION_UNSUPPORTED",
            .dict [("cliVersion", .str vs), ("minVersion", .str mvs)], .none⟩ : SDError)
        else Except.ok ()
      | _, _ => Except.ok ()) = _
    rw [if_neg hsent, hpc, hpm]
    show (if versionLt pc pm then
        Except.error (⟨.str "CLI_VERSION_UNSUPPORTED",
          .dict [("cliVersion", .str vs), ("minVersion", .str mvs)], .none⟩ : SDError)
      else Except.ok ()) = _
    rw [if_pos hlt]
  rw [invokeTail, hparse]
  show invokeAfterParse (.str mvs) envelope returncode = _
  rw [invokeAfterParse, hgate]

/-- C10 witness: on a CLI envelope with `ok` false and error `DOC_LOCKED` but
version `0.9.0` against minimum `1.0.0`, the invocation reports
`CLI_VERSION_UNSUPPORTED`, not the CLI error. -/
theorem claim_C10_witness :
    parse_envelope jloadsErr rawErrJson "" = .ok envelopeErr090 ∧
    pyTruthy (pget envelopeErr090 "ok") = false ∧
    invokeTail jloadsErr (.str "1.0.0") rawErrJson "" (.int 3) =
      .error ⟨.str "CLI_VERSION_UNSUPPORTED",
        .dict [("cliVersion", .str "0.9.0"), ("minVersion", .str "1.0.0")], .none⟩ :=
  ⟨rfl, rfl, claim_C10 jloadsErr "1.0.0" rawErrJson "" (.int 3) envelopeErr090
    [("version", .str "0.9.0")] "0.9.0" (0, 9, 0) (1, 0, 0)
    rfl rfl rfl (by decide) rfl rfl rfl⟩
